import Mathlib

/-!
Verification of the transaction codec layer of a ledger interchange tool.

The development shallowly embeds the Rust sources: byte streams are
`List Nat` (each element one byte), Rust `String` values are `List Char`
(Rust `char` and Lean `Char` are both Unicode scalar values), machine
integers are `Nat`/`Int` with explicit bounds, fallible operations return
`Except ParserErr`.  The UTF-8 encoder/decoder below models Rust's
`String::as_bytes` / `String::from_utf8`, the decimal printer/parsers model
Rust's `Display`/`FromStr` for `u64`/`i64`, and the record-level CSV
splitter models the `csv` crate's default reader (quote `"`, doubled-quote
escapes, `\n`/`\r` terminators outside quotes, empty lines skipped).
All other definitions are translated directly from the repository sources
(`bin_psrser.rs`, `csv_parser.rs`, `text_parser.rs`, `io/writer.rs`,
`io/reader.rs`, `converter/logic.rs`, `comparer/logic.rs`).
-/

/-! ## UTF-8: model of Rust String.as_bytes and String::from_utf8 -/

def utf8EncodeChar (c : Char) : List Nat :=
  if c.toNat < 128 then [c.toNat]
  else if c.toNat < 2048 then [192 + c.toNat / 64, 128 + c.toNat % 64]
  else if c.toNat < 65536 then
    [224 + c.toNat / 4096, 128 + c.toNat / 64 % 64, 128 + c.toNat % 64]
  else
    [240 + c.toNat / 262144, 128 + c.toNat / 4096 % 64, 128 + c.toNat / 64 % 64,
      128 + c.toNat % 64]

def utf8Encode (s : List Char) : List Nat := (s.map utf8EncodeChar).flatten

def utf8DecodeChar (b : Nat) (bs : List Nat) : Option (Char × List Nat) :=
  if b < 128 then some (Char.ofNat b, bs)
  else if b < 194 then none
  else if b < 224 then
    match bs with
    | b1 :: bs1 =>
      if 128 ≤ b1 ∧ b1 < 192 then some (Char.ofNat ((b - 192) * 64 + (b1 - 128)), bs1) else none
    | [] => none
  else if b < 240 then
    match bs with
    | b1 :: b2 :: bs2 =>
      if 128 ≤ b1 ∧ b1 < 192 ∧ 128 ≤ b2 ∧ b2 < 192 then
        if 2048 ≤ (b - 224) * 4096 + (b1 - 128) * 64 + (b2 - 128) ∧
            ((b - 224) * 4096 + (b1 - 128) * 64 + (b2 - 128) < 55296 ∨
              57344 ≤ (b - 224) * 4096 + (b1 - 128) * 64 + (b2 - 128)) then
          some (Char.ofNat ((b - 224) * 4096 + (b1 - 128) * 64 + (b2 - 128)), bs2)
        else none
      else none
    | _ => none
  else if b < 245 then
    match bs with
    | b1 :: b2 :: b3 :: bs3 =>
      if 128 ≤ b1 ∧ b1 < 192 ∧ 128 ≤ b2 ∧ b2 < 192 ∧ 128 ≤ b3 ∧ b3 < 192 then
        if 65536 ≤ (b - 240) * 262144 + (b1 - 128) * 4096 + (b2 - 128) * 64 + (b3 - 128) ∧
            (b - 240) * 262144 + (b1 - 128) * 4096 + (b2 - 128) * 64 + (b3 - 128) < 1114112 then
          some (Char.ofNat
            ((b - 240) * 262144 + (b1 - 128) * 4096 + (b2 - 128) * 64 + (b3 - 128)), bs3)
        else none
      else none
    | _ => none
  else none

def utf8DecodeGo (fuel : Nat) (bs : List Nat) : Option (List Char) :=
  match fuel with
  | 0 => match bs with | [] => some [] | _ => none
  | fuel + 1 =>
    match bs with
    | [] => some []
    | b :: rest0 =>
      match utf8DecodeChar b rest0 with
      | none => none
      | some (c, rest) => (utf8DecodeGo fuel rest).map (fun cs => c :: cs)

def utf8Decode (bs : List Nat) : Option (List Char) := utf8DecodeGo bs.length bs

/-! ## Decimal rendering and parsing: model of u64/i64 Display and FromStr -/

def natDecGo : Nat → Nat → List Char
  | 0, _ => []
  | fuel + 1, n => if n = 0 then [] else natDecGo fuel (n / 10) ++ [Char.ofNat (48 + n % 10)]

def natDec (n : Nat) : List Char :=
  if n = 0 then [Char.ofNat 48] else natDecGo n n

def digitsVal (cs : List Char) : Nat := cs.foldl (fun a c => a * 10 + (c.toNat - 48)) 0

def isDigitChar (c : Char) : Bool := decide (48 ≤ c.toNat ∧ c.toNat ≤ 57)

def parseDigits (cs : List Char) : Option Nat :=
  if cs ≠ [] ∧ cs.all isDigitChar then some (digitsVal cs) else none

def parseU64 (cs : List Char) : Option Nat :=
  match cs with
  | [] => none
  | c :: t =>
    match parseDigits (if c = Char.ofNat 43 then t else c :: t) with
    | some v => if v < 2 ^ 64 then some v else none
    | none => none

def intDec (i : Int) : List Char :=
  if i < 0 then Char.ofNat 45 :: natDec (-i).toNat else natDec i.toNat

def parseI64 (cs : List Char) : Option Int :=
  match cs with
  | [] => none
  | c :: t =>
    if c = Char.ofNat 45 then
      match parseDigits t with
      | some v => if v ≤ 2 ^ 63 then some (-(v : Int)) else none
      | none => none
    else
      match parseDigits (if c = Char.ofNat 43 then t else c :: t) with
      | some v => if v < 2 ^ 63 then some (v : Int) else none
      | none => none

/-! ## Rust str helpers: trim, lines, find-colon split -/

def isRustWs (c : Char) : Bool :=
  c.toNat ∈ [9, 10, 11, 12, 13, 32, 133, 160, 5760, 8192, 8193, 8194, 8195, 8196, 8197,
    8198, 8199, 8200, 8201, 8202, 8232, 8233, 8239, 8287, 12288]

def rustTrim (cs : List Char) : List Char :=
  ((cs.dropWhile isRustWs).reverse.dropWhile isRustWs).reverse

def splitOnChar (sep : Char) : List Char → List (List Char)
  | [] => [[]]
  | c :: t =>
    if c = sep then [] :: splitOnChar sep t
    else
      match splitOnChar sep t with
      | h :: r => (c :: h) :: r
      | [] => [[c]]

def stripCr (cs : List Char) : List Char :=
  match cs.getLast? with
  | some c => if c = Char.ofNat 13 then cs.dropLast else cs
  | none => cs

def rustLines (cs : List Char) : List (List Char) :=
  if cs = [] then []
  else
    (if (splitOnChar (Char.ofNat 10) cs).getLast? = some [] then
      (splitOnChar (Char.ofNat 10) cs).dropLast
    else splitOnChar (Char.ofNat 10) cs).map stripCr

def splitAtColon : List Char → Option (List Char × List Char)
  | [] => none
  | c :: t =>
    if c = ':' then some ([], t)
    else
      match splitAtColon t with
      | some (a, b) => some (c :: a, b)
      | none => none

/-! ## Transaction model (src/lib/src/model/data.rs, errors.rs) -/

inductive TxType
  | Deposit
  | Transfer
  | Withdrawal
deriving DecidableEq

inductive Status
  | Success
  | Failure
  | Pending
deriving DecidableEq

inductive Format
  | YpBankCsv
  | YpBankText
  | YpBankBin
deriving DecidableEq

structure TxData where
  tx_id : Nat
  tx_type : TxType
  from_user_id : Nat
  to_user_id : Nat
  amount : Int
  timestamp : Nat
  status : Status
  description : List Char
  format : Format
deriving DecidableEq

inductive ParserErr
  | ParseErr (msg : String)
  | SerializeErr (msg : String)
deriving DecidableEq

deriving instance DecidableEq for Except

/-- Display rendering of ParserErr per the thiserror attributes in errors.rs. -/
def errDisplay : ParserErr → String
  | .ParseErr _ => "parser -> global error"
  | .SerializeErr _ => "serealize -> global error"

/-- Bounds a record must satisfy for the machine-integer fields of the Rust
struct: u64 identifiers and timestamp, i64 amount, and a description whose
UTF-8 byte length keeps the binary record body below the u32 size field. -/
def ValidTx (tx : TxData) : Prop :=
  tx.tx_id < 2 ^ 64 ∧ tx.from_user_id < 2 ^ 64 ∧ tx.to_user_id < 2 ^ 64 ∧
    tx.timestamp < 2 ^ 64 ∧ -(2 ^ 63) ≤ tx.amount ∧ tx.amount < 2 ^ 63 ∧
    (utf8Encode tx.description).length + 46 < 2 ^ 32

instance (tx : TxData) : Decidable (ValidTx tx) := by
  unfold ValidTx
  infer_instance

/-! ## Big-endian byte helpers (byteorder crate reads/writes) -/

def u64be (v : Nat) : List Nat :=
  [v / 2 ^ 56 % 256, v / 2 ^ 48 % 256, v / 2 ^ 40 % 256, v / 2 ^ 32 % 256,
    v / 2 ^ 24 % 256, v / 2 ^ 16 % 256, v / 2 ^ 8 % 256, v % 256]

def u32be (v : Nat) : List Nat :=
  [v / 2 ^ 24 % 256, v / 2 ^ 16 % 256, v / 2 ^ 8 % 256, v % 256]

def beVal (bs : List Nat) : Nat := bs.foldl (fun a b => a * 256 + b) 0

/-- Model of io::Read::read_exact on an in-memory stream: `n` bytes or failure. -/
def readExact (n : Nat) (bs : List Nat) : Option (List Nat × List Nat) :=
  if n ≤ bs.length then some (bs.take n, bs.drop n) else none

def readBE (count : Nat) (bs : List Nat) : Option (Nat × List Nat) :=
  if count ≤ bs.length then some (beVal (bs.take count), bs.drop count) else none

def readByte (bs : List Nat) : Option (Nat × List Nat) :=
  match bs with
  | [] => none
  | b :: t => some (b, t)

/-- Two's-complement raw u64 written for an i64 amount (write_i64 big-endian). -/
def i64Raw (a : Int) : Nat := (a % (2 ^ 64 : Int)).toNat

/-- Value read back by read_i64 from a raw big-endian u64. -/
def i64ofRaw (n : Nat) : Int :=
  if n < 2 ^ 63 then (n : Int) else (n : Int) - 2 ^ 64

/-- Error message of a failed read_exact (std::io ErrorKind::UnexpectedEof). -/
def eofMsg : String := "failed to fill whole buffer"

def magicBytes : List Nat := [89, 80, 66, 78]

/-! ## Binary codec (src/lib/src/parser/bin_psrser.rs) -/

def txTypeCode : TxType → Nat
  | .Deposit => 0
  | .Transfer => 1
  | .Withdrawal => 2

def statusCode : Status → Nat
  | .Success => 0
  | .Failure => 1
  | .Pending => 2

def decodeTxTypeByte (b : Nat) : Except ParserErr TxType :=
  match b with
  | 0 => .ok .Deposit
  | 1 => .ok .Transfer
  | 2 => .ok .Withdrawal
  | v => .error (.ParseErr ("Invalid TX_TYPE: " ++ toString v))

def decodeStatusByte (b : Nat) : Except ParserErr Status :=
  match b with
  | 0 => .ok .Success
  | 1 => .ok .Failure
  | 2 => .ok .Pending
  | v => .error (.ParseErr ("Invalid STATUS: " ++ toString v))

/-- Decode one record body (TxnFromBin::from_bin).  The cursor state is the
remaining byte list; the Rust guard `cursor.position + desc_len > body.len()`
is exactly `remaining.length < desc_len` at that point. -/
def from_bin (body : List Nat) : Except ParserErr TxData :=
  match readBE 8 body with
  | none => .error (.ParseErr eofMsg)
  | some (tx_id, r1) =>
  match readByte r1 with
  | none => .error (.ParseErr eofMsg)
  | some (tb, r2) =>
  match decodeTxTypeByte tb with
  | .error e => .error e
  | .ok tx_type =>
  match readBE 8 r2 with
  | none => .error (.ParseErr eofMsg)
  | some (from_user_id, r3) =>
  match readBE 8 r3 with
  | none => .error (.ParseErr eofMsg)
  | some (to_user_id, r4) =>
  match readBE 8 r4 with
  | none => .error (.ParseErr eofMsg)
  | some (amountRaw, r5) =>
  match readBE 8 r5 with
  | none => .error (.ParseErr eofMsg)
  | some (timestamp, r6) =>
  match readByte r6 with
  | none => .error (.ParseErr eofMsg)
  | some (sb, r7) =>
  match decodeStatusByte sb with
  | .error e => .error e
  | .ok status =>
  match readBE 4 r7 with
  | none => .error (.ParseErr eofMsg)
  | some (descLen, r8) =>
  if r8.length < descLen then .error (.ParseErr "DESCRIPTION length exceeds body")
  else
    match readExact descLen r8 with
    | none => .error (.ParseErr eofMsg)
    | some (descBytes, _) =>
    match utf8Decode descBytes with
    | none => .error (.ParseErr "Invalid UTF-8 in DESCRIPTION: invalid utf-8 sequence")
    | some description =>
      .ok { tx_id := tx_id, tx_type := tx_type, from_user_id := from_user_id,
            to_user_id := to_user_id, amount := i64ofRaw amountRaw, timestamp := timestamp,
            status := status, description := description, format := Format.YpBankBin }

/-- Decode a whole stream (TxnFromBin::from_bin_reader): stop successfully when
a full 4-byte magic cannot be read, fail on a wrong magic, otherwise read the
u32 size, that many body bytes, and recurse. -/
def from_bin_reader (bs : List Nat) : Except ParserErr (List TxData) :=
  if h4 : bs.length < 4 then .ok []
  else if bs.take 4 ≠ magicBytes then .error (.ParseErr "Invalid MAGIC number")
  else if h8 : (bs.drop 4).length < 4 then .error (.ParseErr eofMsg)
  else if hs : ((bs.drop 4).drop 4).length < beVal ((bs.drop 4).take 4) then
    .error (.ParseErr eofMsg)
  else
    match from_bin (((bs.drop 4).drop 4).take (beVal ((bs.drop 4).take 4))) with
    | .error e => .error e
    | .ok tx =>
      match from_bin_reader (((bs.drop 4).drop 4).drop (beVal ((bs.drop 4).take 4))) with
      | .error e => .error e
      | .ok txs => .ok (tx :: txs)
termination_by bs.length
decreasing_by
  simp only [List.length_drop]
  omega

/-- The body bytes to_bin builds: fields in declared order, big-endian. -/
def binBody (tx : TxData) : List Nat :=
  u64be tx.tx_id ++ [txTypeCode tx.tx_type] ++ u64be tx.from_user_id ++
    u64be tx.to_user_id ++ u64be (i64Raw tx.amount) ++ u64be tx.timestamp ++
    [statusCode tx.status] ++ u32be (utf8Encode tx.description).length ++
    utf8Encode tx.description

/-- Encode one record (TxnToBin::to_bin): big-endian body, framed by the magic
and the u32 body length (`as u32` truncation is implicit in u32be). -/
def to_bin (tx : TxData) : Except ParserErr (List Nat) :=
  .ok (magicBytes ++ u32be (binBody tx).length ++ binBody tx)

def to_bin_many : List TxData → Except ParserErr (List Nat)
  | [] => .ok []
  | tx :: t =>
    match to_bin tx with
    | .error e => .error e
    | .ok bs =>
      match to_bin_many t with
      | .error e => .error e
      | .ok rest => .ok (bs ++ rest)

/-! ## CSV codec (src/lib/src/parser/csv_parser.rs); the record splitter and
field scanner model the external csv crate's default reader. -/

def CSV_HEADER_LINE : List Char :=
  "TX_ID,TX_TYPE,FROM_USER_ID,TO_USER_ID,AMOUNT,TIMESTAMP,STATUS,DESCRIPTION".data

def CSV_HEADERS : List (List Char) :=
  ["TX_ID".data, "TX_TYPE".data, "FROM_USER_ID".data, "TO_USER_ID".data, "AMOUNT".data,
    "TIMESTAMP".data, "STATUS".data, "DESCRIPTION".data]

/-- One pass over a raw record's characters: mode 0 = at field start,
mode 2 = inside a quoted field, mode 3 = right after a quote seen inside a
quoted field (a second quote collapses the pair to one literal quote, any
other character closes the field's quoting leniently, as the csv crate
does), any other mode = inside an unquoted field. -/
def csvRecFieldsGo : List Char → Nat → List Char → List (List Char) → List (List Char)
  | [], _, fld, fs => (fld.reverse :: fs).reverse
  | c :: t, 0, fld, fs =>
    if c = '"' then csvRecFieldsGo t 2 fld fs
    else if c = ',' then csvRecFieldsGo t 0 [] (fld.reverse :: fs)
    else csvRecFieldsGo t 1 (c :: fld) fs
  | c :: t, 2, fld, fs =>
    if c = '"' then csvRecFieldsGo t 3 fld fs
    else csvRecFieldsGo t 2 (c :: fld) fs
  | c :: t, 3, fld, fs =>
    if c = '"' then csvRecFieldsGo t 2 ('"' :: fld) fs
    else if c = ',' then csvRecFieldsGo t 0 [] (fld.reverse :: fs)
    else csvRecFieldsGo t 1 (c :: fld) fs
  | c :: t, _, fld, fs =>
    if c = ',' then csvRecFieldsGo t 0 [] (fld.reverse :: fs)
    else csvRecFieldsGo t 1 (c :: fld) fs

/-- Split one raw record (no unquoted terminators) into its fields. -/
def csvRecFields (cs : List Char) : List (List Char) :=
  csvRecFieldsGo cs 0 [] []

/-- Split a CSV document into raw records at unquoted terminators, skipping
empty lines, tracking the quoting state by toggling at each quote. -/
def csvSplitRecs : List Char → Bool → List Char → List (List Char) → List (List Char)
  | [], _, cur, acc => (if cur = [] then acc else cur.reverse :: acc).reverse
  | c :: t, true, cur, acc => csvSplitRecs t (c ≠ '"') (c :: cur) acc
  | c :: t, false, cur, acc =>
    if c = '"' then csvSplitRecs t true (c :: cur) acc
    else if c = Char.ofNat 10 ∨ c = Char.ofNat 13 then
      if cur = [] then csvSplitRecs t false [] acc
      else csvSplitRecs t false [] (cur.reverse :: acc)
    else csvSplitRecs t false (c :: cur) acc

def csvRecords (cs : List Char) : List (List (List Char)) :=
  (csvSplitRecs cs false [] []).map csvRecFields

def parse_tx_type_str (s : List Char) : Except ParserErr TxType :=
  if s = "DEPOSIT".data then .ok .Deposit
  else if s = "TRANSFER".data then .ok .Transfer
  else if s = "WITHDRAWAL".data then .ok .Withdrawal
  else .error (.ParseErr ("Invalid TX_TYPE: " ++ String.mk s))

def parse_status_str (s : List Char) : Except ParserErr Status :=
  if s = "SUCCESS".data then .ok .Success
  else if s = "FAILURE".data then .ok .Failure
  else if s = "PENDING".data then .ok .Pending
  else .error (.ParseErr ("Invalid STATUS: " ++ String.mk s))

def from_csv_record (record : List (List Char)) : Except ParserErr TxData :=
  match record with
  | [f0, f1, f2, f3, f4, f5, f6, f7] =>
    match parseU64 f0 with
    | none => .error (.ParseErr "Invalid TX_ID")
    | some tx_id =>
    match parse_tx_type_str f1 with
    | .error e => .error e
    | .ok tx_type =>
    match parseU64 f2 with
    | none => .error (.ParseErr "Invalid from_user_id")
    | some from_user_id =>
    match parseU64 f3 with
    | none => .error (.ParseErr "Invalid to_user_id")
    | some to_user_id =>
    match parseI64 f4 with
    | none => .error (.ParseErr "Invalid amount")
    | some amount =>
    match parseU64 f5 with
    | none => .error (.ParseErr "Invalid TIMESTAMP")
    | some timestamp =>
    match parse_status_str f6 with
    | .error e => .error e
    | .ok status =>
      .ok { tx_id := tx_id, tx_type := tx_type, from_user_id := from_user_id,
            to_user_id := to_user_id, amount := amount, timestamp := timestamp,
            status := status, description := f7, format := Format.YpBankCsv }
  | _ => .error (.ParseErr ("Expected 8 fields, got " ++ toString record.length))

/-- TxnFromCsv::from_csv: the first record the csv reader yields. -/
def from_csv (cs : List Char) : Except ParserErr TxData :=
  match csvRecords cs with
  | [] => .error (.ParseErr "Empty CSV line")
  | r :: _ => from_csv_record r

def from_csv_many_go : List (List Char) → Nat → Except ParserErr (List TxData)
  | [], _ => .ok []
  | line :: rest, i =>
    if rustTrim line = [] then from_csv_many_go rest (i + 1)
    else
      match from_csv line with
      | .ok tx =>
        match from_csv_many_go rest (i + 1) with
        | .ok txs => .ok (tx :: txs)
        | .error e => .error e
      | .error e =>
        .error (.ParseErr ("Error parsing line " ++ toString (i + 1) ++ ": " ++ errDisplay e))

/-- TxnFromCsv::from_csv_many: strict full-line header check, then per-line
parsing (line numbers start at the header being line 1). -/
def from_csv_many (csv_lines : List (List Char)) : Except ParserErr (List TxData) :=
  match csv_lines with
  | [] => .error (.ParseErr "CSV is empty")
  | header :: rest =>
    if rustTrim header ≠ CSV_HEADER_LINE then
      .error (.ParseErr ("Invalid header: expected '" ++ String.mk CSV_HEADER_LINE ++
        "', got '" ++ String.mk header ++ "'"))
    else from_csv_many_go rest 1

def from_csv_reader_go : List (List (List Char)) → Nat → Except ParserErr (List TxData)
  | [], _ => .ok []
  | row :: rest, i =>
    if row.all (fun f => f = []) then from_csv_reader_go rest (i + 1)
    else
      match from_csv_record row with
      | .ok tx =>
        match from_csv_reader_go rest (i + 1) with
        | .ok txs => .ok (tx :: txs)
        | .error e => .error e
      | .error e =>
        .error (.ParseErr ("Field error on row " ++ toString (i + 2) ++ ": " ++ errDisplay e))

/-- TxnFromCsv::from_csv_reader: structured positional header comparison, then
rows with all-empty rows skipped. -/
def from_csv_reader (bs : List Nat) : Except ParserErr (List TxData) :=
  match utf8Decode bs with
  | none => .error (.ParseErr "stream did not contain valid UTF-8")
  | some cs =>
    match csvRecords cs with
    | [] => .error (.ParseErr "Invalid CSV header. Expected 8 named columns, got none")
    | hdr :: rows =>
      if hdr ≠ CSV_HEADERS then
        .error (.ParseErr ("Invalid CSV header. Expected 8 named columns, got: " ++
          String.intercalate "," (hdr.map String.mk)))
      else from_csv_reader_go rows 0

def doubleQuotes : List Char → List Char
  | [] => []
  | c :: t => if c = '"' then '"' :: '"' :: doubleQuotes t else c :: doubleQuotes t

def escape_csv_field (s : List Char) : List Char :=
  if s.contains '"' || s.contains ',' || s.contains (Char.ofNat 10) then doubleQuotes s else s

def txTypeChars : TxType → List Char
  | .Deposit => "DEPOSIT".data
  | .Transfer => "TRANSFER".data
  | .Withdrawal => "WITHDRAWAL".data

def statusChars : Status → List Char
  | .Success => "SUCCESS".data
  | .Failure => "FAILURE".data
  | .Pending => "PENDING".data

/-- TxnToCsv::to_csv: one comma-separated line, description always quoted. -/
def to_csv (tx : TxData) : Except ParserErr (List Char) :=
  .ok (natDec tx.tx_id ++ [','] ++ txTypeChars tx.tx_type ++ [','] ++
    natDec tx.from_user_id ++ [','] ++ natDec tx.to_user_id ++ [','] ++
    intDec tx.amount ++ [','] ++ natDec tx.timestamp ++ [','] ++
    statusChars tx.status ++ [','] ++
    '"' :: escape_csv_field tx.description ++ ['"'])

def to_csv_lines : List TxData → Except ParserErr (List (List Char))
  | [] => .ok []
  | tx :: t =>
    match to_csv tx with
    | .error e => .error e
    | .ok l =>
      match to_csv_lines t with
      | .error e => .error e
      | .ok ls => .ok (l :: ls)

/-- TxnToCsv::to_csv_many: header line, then one line per record, each line
(header included) followed by a newline. -/
def to_csv_many (transactions : List TxData) : Except ParserErr (List Char) :=
  match to_csv_lines transactions with
  | .error e => .error e
  | .ok ls =>
    .ok (CSV_HEADER_LINE ++ Char.ofNat 10 :: (ls.map (fun l => l ++ [Char.ofNat 10])).flatten)

/-! ## Text codec (src/lib/src/parser/text_parser.rs) -/

def mapInsert (k v : List Char) : List (List Char × List Char) → List (List Char × List Char)
  | [] => [(k, v)]
  | (k', v') :: t => if k' = k then (k, v) :: t else (k', v') :: mapInsert k v t

def assocGet (k : List Char) : List (List Char × List Char) → Option (List Char)
  | [] => none
  | (k', v') :: t => if k' = k then some v' else assocGet k t

def unquoteText (s : List Char) : List Char :=
  if 2 ≤ s.length ∧ s.head? = some '"' ∧ s.getLast? = some '"' then (s.drop 1).dropLast else s

/-- TxnFromText::from_text: build a record from the key-value map. -/
def from_text (fields : List (List Char × List Char)) : Except ParserErr TxData :=
  match assocGet "TX_ID".data fields with
  | none => .error (.ParseErr "Missing field: TX_ID")
  | some v0 =>
  match parseU64 v0 with
  | none => .error (.ParseErr "Invalid TX_ID")
  | some tx_id =>
  match assocGet "TX_TYPE".data fields with
  | none => .error (.ParseErr "Missing field: TX_TYPE")
  | some v1 =>
  match parse_tx_type_str v1 with
  | .error e => .error e
  | .ok tx_type =>
  match assocGet "FROM_USER_ID".data fields with
  | none => .error (.ParseErr "Missing field: FROM_USER_ID")
  | some v2 =>
  match parseU64 v2 with
  | none => .error (.ParseErr "Invalid FROM_USER_ID")
  | some from_user_id =>
  match assocGet "TO_USER_ID".data fields with
  | none => .error (.ParseErr "Missing field: TO_USER_ID")
  | some v3 =>
  match parseU64 v3 with
  | none => .error (.ParseErr "Invalid TO_USER_ID")
  | some to_user_id =>
  match assocGet "AMOUNT".data fields with
  | none => .error (.ParseErr "Missing field: AMOUNT")
  | some v4 =>
  match parseI64 v4 with
  | none => .error (.ParseErr "Invalid AMOUNT")
  | some amount =>
  match assocGet "TIMESTAMP".data fields with
  | none => .error (.ParseErr "Missing field: TIMESTAMP")
  | some v5 =>
  match parseU64 v5 with
  | none => .error (.ParseErr "Invalid TIMESTAMP")
  | some timestamp =>
  match assocGet "STATUS".data fields with
  | none => .error (.ParseErr "Missing field: STATUS")
  | some v6 =>
  match parse_status_str v6 with
  | .error e => .error e
  | .ok status =>
  match assocGet "DESCRIPTION".data fields with
  | none => .error (.ParseErr "Missing field: DESCRIPTION")
  | some v7 =>
    .ok { tx_id := tx_id, tx_type := tx_type, from_user_id := from_user_id,
          to_user_id := to_user_id, amount := amount, timestamp := timestamp,
          status := status, description := unquoteText v7, format := Format.YpBankText }

def from_text_many_go :
    List (List Char) → Nat → List (List Char × List Char) → List TxData →
      Except ParserErr (List TxData)
  | [], _, current, acc =>
    if current = [] then .ok acc.reverse
    else
      match from_text current with
      | .ok tx => .ok (tx :: acc).reverse
      | .error e => .error e
  | line :: rest, i, current, acc =>
    if rustTrim line = [] ∨ (rustTrim line).head? = some '#' then
      if current = [] then from_text_many_go rest (i + 1) current acc
      else
        match from_text current with
        | .ok tx => from_text_many_go rest (i + 1) [] (tx :: acc)
        | .error e => .error e
    else
      match splitAtColon (rustTrim line) with
      | some (k, v) => from_text_many_go rest (i + 1) (mapInsert (rustTrim k) (rustTrim v) current) acc
      | none =>
        .error (.ParseErr ("Invalid key-value on line " ++ toString (i + 1) ++ ": " ++
          String.mk line))

/-- TxnFromText::from_text_many: blank or '#' lines close the current block. -/
def from_text_many (lines : List (List Char)) : Except ParserErr (List TxData) :=
  from_text_many_go lines 0 [] []

/-- TxnFromText::from_text_reader: read the whole stream as UTF-8, split into
lines, delegate to from_text_many. -/
def from_text_reader (bs : List Nat) : Except ParserErr (List TxData) :=
  match utf8Decode bs with
  | none => .error (.ParseErr "stream did not contain valid UTF-8")
  | some cs => from_text_many (rustLines cs)

/-- TxnToText::to_text: the 8 KEY: value lines joined by single newlines,
description always wrapped in double quotes without escaping. -/
def to_text (tx : TxData) : Except ParserErr (List Char) :=
  .ok ("TX_ID: ".data ++ natDec tx.tx_id ++ Char.ofNat 10 ::
    "TX_TYPE: ".data ++ txTypeChars tx.tx_type ++ Char.ofNat 10 ::
    "FROM_USER_ID: ".data ++ natDec tx.from_user_id ++ Char.ofNat 10 ::
    "TO_USER_ID: ".data ++ natDec tx.to_user_id ++ Char.ofNat 10 ::
    "AMOUNT: ".data ++ intDec tx.amount ++ Char.ofNat 10 ::
    "TIMESTAMP: ".data ++ natDec tx.timestamp ++ Char.ofNat 10 ::
    "STATUS: ".data ++ statusChars tx.status ++ Char.ofNat 10 ::
    "DESCRIPTION: ".data ++ '"' :: tx.description ++ ['"'])

def to_text_lines : List TxData → Except ParserErr (List (List Char))
  | [] => .ok []
  | tx :: t =>
    match to_text tx with
    | .error e => .error e
    | .ok l =>
      match to_text_lines t with
      | .error e => .error e
      | .ok ls => .ok (l :: ls)

/-- TxnToText::to_text_many: blocks joined by pushing a single newline
character between consecutive records. -/
def to_text_many (transactions : List TxData) : Except ParserErr (List Char) :=
  match to_text_lines transactions with
  | .error e => .error e
  | .ok ls => .ok (List.intercalate [Char.ofNat 10] ls)

/-! ## Dispatch, writer effects, converter and comparer
(io/writer.rs, io/reader.rs, converter/logic.rs, comparer/logic.rs) -/

inductive DestEffect
  | create
  | writeAll (bytes : List Nat)
  | flush
deriving DecidableEq

/-- The bytes write_to_resource builds for a format (its `data_to_write`):
binary concatenation, or the per-record CSV/text lines joined with a single
newline (note: no CSV header, no trailing newline). -/
def encode_for_write (txns : List TxData) (format : Format) : Except ParserErr (List Nat) :=
  match format with
  | .YpBankBin => to_bin_many txns
  | .YpBankCsv =>
    match to_csv_lines txns with
    | .error e => .error e
    | .ok ls => .ok (utf8Encode (List.intercalate [Char.ofNat 10] ls))
  | .YpBankText =>
    match to_text_lines txns with
    | .error e => .error e
    | .ok ls => .ok (utf8Encode (List.intercalate [Char.ofNat 10] ls))

/-- write_to_resource: opens (creates) the destination first, then encodes,
then writes all bytes and flushes.  The effect trace records what reached the
destination resource. -/
def write_to_resource (txns : List TxData) (format : Format) :
    Except ParserErr Unit × List DestEffect :=
  match encode_for_write txns format with
  | .error e => (.error e, [.create])
  | .ok bytes => (.ok (), [.create, .writeAll bytes, .flush])

/-- read_from_resource: format dispatch over the three stream decoders. -/
def read_from_resource (bs : List Nat) (format : Format) : Except ParserErr (List TxData) :=
  match format with
  | .YpBankBin => from_bin_reader bs
  | .YpBankCsv => from_csv_reader bs
  | .YpBankText => from_text_reader bs

structure ConvertLogicResult where
  success : Bool
deriving DecidableEq

inductive ConvertLogicErr
  | Prepare (err : ParserErr)
  | Logic
deriving DecidableEq

structure ComparerLogicResult where
  result : Bool
deriving DecidableEq

inductive CompareLogicErr
  | Prepare (err : ParserErr)
  | Logic
deriving DecidableEq

/-- process_convert_logic: read the source fully, then write to the
destination; the effect trace lists everything done to the destination. -/
def process_convert_logic (src : List Nat) (from_format to_format : Format) :
    Except ConvertLogicErr ConvertLogicResult × List DestEffect :=
  match read_from_resource src from_format with
  | .error e => (.error (.Prepare e), [])
  | .ok data =>
    match write_to_resource data to_format with
    | (.ok _, effs) => (.ok { success := true }, effs)
    | (.error e, effs) => (.error (.Prepare e), effs)

/-- process_comparer_logic applied to the two decode results. -/
def process_comparer_logic (first second : Except ParserErr (List TxData)) :
    Except CompareLogicErr ComparerLogicResult :=
  match first with
  | .error e => .error (.Prepare e)
  | .ok a =>
    match second with
    | .error e => .error (.Prepare e)
    | .ok b => if a = b then .ok { result := true } else .ok { result := false }

/-! ## Concrete example records (used by closed theorems and witnesses) -/

def exCsv : TxData :=
  { tx_id := 1, tx_type := TxType.Deposit, from_user_id := 0, to_user_id := 100, amount := 1000,
    timestamp := 1700000000, status := Status.Success, description := "Initial deposit".data,
    format := Format.YpBankCsv }

def exCsvQ : TxData :=
  { exCsv with description := "say \"hi\", ok\nnl".data }

def exBin : TxData :=
  { exCsv with
    format := Format.YpBankBin
    amount := -42
    description := [Char.ofNat 128512, Char.ofNat 101, Char.ofNat 769] }

def exText : TxData := { exCsv with format := Format.YpBankText }

def exTextE : TxData :=
  { exCsv with
    format := Format.YpBankText
    description := [] }

def exText2 : TxData :=
  { exCsv with
    format := Format.YpBankText
    tx_id := 2
    description := "second".data }

def exTextNl : TxData :=
  { exCsv with
    format := Format.YpBankText
    description := ['a', Char.ofNat 10, 'b'] }

/-! ## Foundations: Char, UTF-8, decimal, big-endian lemmas -/

theorem charToNat_ofNat (n : Nat) (h : n.isValidChar) : (Char.ofNat n).toNat = n := by
  have hlt : n < 1114112 := by rcases h with h | ⟨_, h⟩ <;> omega
  simp [Char.ofNat, h, Char.ofNatAux, Char.toNat, UInt32.toNat, UInt32.ofNatCore]

theorem charOfNat_toNat (c : Char) : Char.ofNat c.toNat = c := by
  have h : c.toNat.isValidChar := c.valid
  unfold Char.ofNat
  rw [dif_pos h]
  apply Char.ext
  apply UInt32.ext
  simp [Char.ofNatAux, Char.toNat, UInt32.toNat]

theorem utf8DecodeChar_length {b : Nat} {bs : List Nat} {c : Char} {rest : List Nat}
    (h : utf8DecodeChar b bs = some (c, rest)) : rest.length ≤ bs.length := by
  unfold utf8DecodeChar at h
  split_ifs at h
  all_goals rcases bs with _ | ⟨b1, _ | ⟨b2, _ | ⟨b3, bs3⟩⟩⟩ <;> (try simp_all) <;> (try omega)

theorem utf8DecodeGo_irrel (n : Nat) :
    ∀ (bs : List Nat) (f1 f2 : Nat), bs.length ≤ n → bs.length ≤ f1 → bs.length ≤ f2 →
      utf8DecodeGo f1 bs = utf8DecodeGo f2 bs := by
  induction n with
  | zero =>
    intro bs f1 f2 h0 h1 h2
    have hbs : bs = [] := by
      cases bs
      · rfl
      · simp at h0
    subst hbs
    cases f1 <;> cases f2 <;> rfl
  | succ n ih =>
    intro bs f1 f2 h0 h1 h2
    rcases bs with _ | ⟨b, rest0⟩
    · cases f1 <;> cases f2 <;> rfl
    · rcases f1 with _ | f1
      · simp at h1
      rcases f2 with _ | f2
      · simp at h2
      cases hdc : utf8DecodeChar b rest0 with
      | none => simp only [utf8DecodeGo, hdc]
      | some cr =>
        obtain ⟨c, rest⟩ := cr
        have hr := utf8DecodeChar_length hdc
        simp only [List.length_cons] at h0 h1 h2
        simp only [utf8DecodeGo, hdc]
        rw [ih rest f1 f2 (by omega) (by omega) (by omega)]

theorem utf8DecodeChar_enc (c : Char) (b : Nat) (tl bs : List Nat)
    (h : utf8EncodeChar c = b :: tl) : utf8DecodeChar b (tl ++ bs) = some (c, bs) := by
  have hval : c.toNat < 55296 ∨ (57343 < c.toNat ∧ c.toNat < 1114112) := c.valid
  unfold utf8EncodeChar at h
  split_ifs at h with h1 h2 h3
  · obtain ⟨rfl, rfl⟩ : c.toNat = b ∧ [] = tl := by simpa using h
    unfold utf8DecodeChar
    rw [if_pos h1, charOfNat_toNat]
    simp
  · obtain ⟨rfl, rfl⟩ : 192 + c.toNat / 64 = b ∧ [128 + c.toNat % 64] = tl := by simpa using h
    unfold utf8DecodeChar
    rw [if_neg (by omega), if_neg (by omega), if_pos (by omega)]
    simp only [List.cons_append, List.nil_append]
    rw [if_pos (by omega)]
    have hv : (192 + c.toNat / 64 - 192) * 64 + (128 + c.toNat % 64 - 128) = c.toNat := by omega
    rw [hv, charOfNat_toNat]
  · obtain ⟨rfl, rfl⟩ : 224 + c.toNat / 4096 = b ∧
        [128 + c.toNat / 64 % 64, 128 + c.toNat % 64] = tl := by simpa using h
    unfold utf8DecodeChar
    rw [if_neg (by omega), if_neg (by omega), if_neg (by omega), if_pos (by omega)]
    simp only [List.cons_append, List.nil_append]
    rw [if_pos (by omega)]
    have hv : (224 + c.toNat / 4096 - 224) * 4096 + (128 + c.toNat / 64 % 64 - 128) * 64 +
        (128 + c.toNat % 64 - 128) = c.toNat := by omega
    rw [hv]
    rw [if_pos (by omega), charOfNat_toNat]
  · obtain ⟨rfl, rfl⟩ : 240 + c.toNat / 262144 = b ∧
        [128 + c.toNat / 4096 % 64, 128 + c.toNat / 64 % 64, 128 + c.toNat % 64] = tl := by
      simpa using h
    unfold utf8DecodeChar
    rw [if_neg (by omega), if_neg (by omega), if_neg (by omega), if_neg (by omega),
      if_pos (by omega)]
    simp only [List.cons_append, List.nil_append]
    rw [if_pos (by omega)]
    have hv : (240 + c.toNat / 262144 - 240) * 262144 + (128 + c.toNat / 4096 % 64 - 128) * 4096 +
        (128 + c.toNat / 64 % 64 - 128) * 64 + (128 + c.toNat % 64 - 128) = c.toNat := by omega
    rw [hv]
    rw [if_pos (by omega), charOfNat_toNat]

theorem utf8EncodeChar_ne_nil (c : Char) : utf8EncodeChar c ≠ [] := by
  unfold utf8EncodeChar
  split_ifs <;> simp

theorem utf8Decode_append_enc (c : Char) (bs : List Nat) :
    utf8Decode (utf8EncodeChar c ++ bs) = (utf8Decode bs).map (fun cs => c :: cs) := by
  rcases henc : utf8EncodeChar c with _ | ⟨b, tl⟩
  · exact absurd henc (utf8EncodeChar_ne_nil c)
  · unfold utf8Decode
    simp only [List.cons_append, List.length_cons, List.length_append]
    simp only [utf8DecodeGo, utf8DecodeChar_enc c b tl bs henc]
    rw [utf8DecodeGo_irrel (tl.length + bs.length) bs (tl.length + bs.length) bs.length
      (by omega) (by omega) le_rfl]

theorem utf8Decode_encode (s : List Char) (bs : List Nat) :
    utf8Decode (utf8Encode s ++ bs) = (utf8Decode bs).map (fun cs => s ++ cs) := by
  induction s with
  | nil =>
    simp only [utf8Encode, List.map_nil, List.flatten_nil, List.nil_append]
    cases utf8Decode bs <;> rfl
  | cons c t ih =>
    have he : utf8Encode (c :: t) = utf8EncodeChar c ++ utf8Encode t := by
      simp [utf8Encode]
    rw [he, List.append_assoc, utf8Decode_append_enc, ih]
    cases utf8Decode bs <;> rfl

theorem utf8Decode_encode_nil (s : List Char) : utf8Decode (utf8Encode s) = some s := by
  have h := utf8Decode_encode s []
  rw [List.append_nil] at h
  rw [h]
  simp [utf8Decode, utf8DecodeGo]

theorem natDecGo_eq (fuel n : Nat) (h : n ≤ fuel) :
    natDecGo fuel n = (Nat.digits 10 n).reverse.map (fun d => Char.ofNat (48 + d)) := by
  induction fuel generalizing n with
  | zero =>
    have h0 : n = 0 := by omega
    subst h0
    simp [natDecGo]
  | succ fuel ih =>
    by_cases h0 : n = 0
    · subst h0
      simp [natDecGo]
    · rw [natDecGo, if_neg h0]
      have hdiv : n / 10 ≤ fuel := by
        have := Nat.div_lt_self (Nat.pos_of_ne_zero h0) (by norm_num : 1 < 10)
        omega
      rw [ih (n / 10) hdiv]
      rw [Nat.digits_def' (by norm_num : 1 < 10) (Nat.pos_of_ne_zero h0)]
      simp

theorem natDec_eq (n : Nat) :
    natDec n =
      if n = 0 then [Char.ofNat 48]
      else (Nat.digits 10 n).reverse.map (fun d => Char.ofNat (48 + d)) := by
  unfold natDec
  split_ifs with h
  · rfl
  · exact natDecGo_eq n n le_rfl

theorem foldl_dec_rev (L : List Nat) (a : Nat) :
    List.foldl (fun x d => x * 10 + d) a L.reverse = a * 10 ^ L.length + Nat.ofDigits 10 L := by
  induction L generalizing a with
  | nil => simp [Nat.ofDigits]
  | cons d t ih =>
    simp only [List.reverse_cons, List.foldl_append, ih, List.length_cons, Nat.ofDigits_cons,
      List.foldl_cons, List.foldl_nil]
    ring

theorem foldl_digit_map (L : List Nat) (a : Nat) (h : ∀ d ∈ L, d < 10) :
    List.foldl (fun x c => x * 10 + (c.toNat - 48)) a (L.map (fun d => Char.ofNat (48 + d))) =
      List.foldl (fun x d => x * 10 + d) a L := by
  induction L generalizing a with
  | nil => rfl
  | cons d t ih =>
    have hd : d < 10 := h d (by simp)
    have hv : (Char.ofNat (48 + d)).toNat = 48 + d := charToNat_ofNat _ (by left; omega)
    simp only [List.map_cons, List.foldl_cons, hv]
    rw [show 48 + d - 48 = d by omega]
    exact ih _ (fun x hx => h x (by simp [hx]))

theorem digitsVal_natDec (n : Nat) : digitsVal (natDec n) = n := by
  rw [natDec_eq]
  by_cases h0 : n = 0
  · subst h0
    simp [digitsVal, charToNat_ofNat 48 (by left; omega)]
  · rw [if_neg h0]
    unfold digitsVal
    rw [foldl_digit_map _ _ (fun d hd => Nat.digits_lt_base (by omega) (List.mem_reverse.mp hd))]
    rw [foldl_dec_rev]
    simp [Nat.ofDigits_digits]

theorem natDec_digits (n : Nat) : ∀ c ∈ natDec n, 48 ≤ c.toNat ∧ c.toNat ≤ 57 := by
  intro c hc
  rw [natDec_eq] at hc
  by_cases h0 : n = 0
  · rw [if_pos h0] at hc
    simp at hc
    subst hc
    rw [charToNat_ofNat 48 (by left; omega)]
    omega
  · rw [if_neg h0] at hc
    obtain ⟨d, hd, rfl⟩ := List.mem_map.mp hc
    have : d < 10 := Nat.digits_lt_base (by omega) (List.mem_reverse.mp hd)
    rw [charToNat_ofNat _ (by left; omega)]
    omega

theorem natDec_ne_nil (n : Nat) : natDec n ≠ [] := by
  rw [natDec_eq]
  split_ifs with h
  · simp
  · simp [Nat.digits_ne_nil_iff_ne_zero, h]

theorem parseDigits_natDec (n : Nat) : parseDigits (natDec n) = some n := by
  unfold parseDigits
  rw [if_pos, digitsVal_natDec]
  constructor
  · exact natDec_ne_nil n
  · rw [List.all_eq_true]
    intro c hc
    have := natDec_digits n c hc
    simp [isDigitChar]
    omega

theorem parseU64_natDec (n : Nat) (h : n < 2 ^ 64) : parseU64 (natDec n) = some n := by
  rcases hd : natDec n with _ | ⟨c, t⟩
  · exact absurd hd (natDec_ne_nil n)
  · have hc : 48 ≤ c.toNat ∧ c.toNat ≤ 57 := natDec_digits n c (by rw [hd]; simp)
    have hne : ¬ (c = Char.ofNat 43) := by
      intro he
      rw [he, charToNat_ofNat 43 (by left; omega)] at hc
      omega
    simp only [parseU64]
    rw [if_neg hne, ← hd, parseDigits_natDec]
    simp only [if_pos h]

theorem parseI64_intDec (i : Int) (h1 : -(2 ^ 63) ≤ i) (h2 : i < 2 ^ 63) :
    parseI64 (intDec i) = some i := by
  unfold intDec
  split_ifs with hneg
  · simp only [parseI64, if_true]
    rw [parseDigits_natDec]
    show (if (-i).toNat ≤ 2 ^ 63 then some (-((-i).toNat : Int)) else none) = some i
    rw [if_pos (by omega)]
    congr 1
    omega
  · rcases hd : natDec i.toNat with _ | ⟨c, t⟩
    · exact absurd hd (natDec_ne_nil _)
    · have hc : 48 ≤ c.toNat ∧ c.toNat ≤ 57 := natDec_digits _ c (by rw [hd]; simp)
      have hm : ¬ (c = Char.ofNat 45) := by
        intro he
        rw [he, charToNat_ofNat 45 (by left; omega)] at hc
        omega
      have hp : ¬ (c = Char.ofNat 43) := by
        intro he
        rw [he, charToNat_ofNat 43 (by left; omega)] at hc
        omega
      simp only [parseI64]
      rw [if_neg hm, if_neg hp, ← hd, parseDigits_natDec]
      show (if i.toNat < 2 ^ 63 then some ((i.toNat : Int)) else none) = some i
      rw [if_pos (by omega)]
      congr 1
      omega

theorem beVal_u64be (v : Nat) (h : v < 2 ^ 64) : beVal (u64be v) = v := by
  simp only [beVal, u64be, List.foldl]
  omega

theorem beVal_u32be (v : Nat) (h : v < 2 ^ 32) : beVal (u32be v) = v := by
  simp only [beVal, u32be, List.foldl]
  omega

theorem u64be_length (v : Nat) : (u64be v).length = 8 := rfl

theorem u32be_length (v : Nat) : (u32be v).length = 4 := rfl

theorem readBE8_append (v : Nat) (rest : List Nat) (h : v < 2 ^ 64) :
    readBE 8 (u64be v ++ rest) = some (v, rest) := by
  unfold readBE
  rw [if_pos (by simp [u64be_length])]
  rw [← u64be_length v, List.take_left, List.drop_left, beVal_u64be v h]

theorem readBE4_append (v : Nat) (rest : List Nat) (h : v < 2 ^ 32) :
    readBE 4 (u32be v ++ rest) = some (v, rest) := by
  unfold readBE
  rw [if_pos (by simp [u32be_length])]
  rw [← u32be_length v, List.take_left, List.drop_left, beVal_u32be v h]

theorem readExact_exact (bs : List Nat) : readExact bs.length bs = some (bs, []) := by
  simp [readExact]

theorem i64Raw_lt (a : Int) : i64Raw a < 2 ^ 64 := by
  unfold i64Raw
  omega

theorem i64ofRaw_i64Raw (a : Int) (h1 : -(2 ^ 63) ≤ a) (h2 : a < 2 ^ 63) :
    i64ofRaw (i64Raw a) = a := by
  unfold i64ofRaw i64Raw
  split_ifs with h
  · omega
  · omega

/-! ## Binary codec lemmas -/

theorem take_append_len {α : Type} (l1 l2 : List α) (n : Nat) (h : n = l1.length) :
    (l1 ++ l2).take n = l1 := by
  subst h
  exact List.take_left l1 l2

theorem drop_append_len {α : Type} (l1 l2 : List α) (n : Nat) (h : n = l1.length) :
    (l1 ++ l2).drop n = l2 := by
  subst h
  exact List.drop_left l1 l2

theorem decodeTxTypeByte_code (ty : TxType) : decodeTxTypeByte (txTypeCode ty) = .ok ty := by
  cases ty <;> rfl

theorem decodeStatusByte_code (st : Status) : decodeStatusByte (statusCode st) = .ok st := by
  cases st <;> rfl

theorem binBody_length (tx : TxData) :
    (binBody tx).length = 46 + (utf8Encode tx.description).length := by
  simp [binBody, u64be, u32be]
  omega

theorem from_bin_binBody (tx : TxData) (h : ValidTx tx) :
    from_bin (binBody tx) = .ok { tx with format := Format.YpBankBin } := by
  obtain ⟨h1, h2, h3, h4, h5, h6, h7⟩ := h
  unfold binBody from_bin
  simp only [List.append_assoc, List.cons_append, List.singleton_append, List.nil_append,
    readBE8_append _ _ h1, readByte, decodeTxTypeByte_code, readBE8_append _ _ h2,
    readBE8_append _ _ h3, readBE8_append _ _ (i64Raw_lt tx.amount), readBE8_append _ _ h4,
    decodeStatusByte_code,
    readBE4_append _ _ (by omega : (utf8Encode tx.description).length < 2 ^ 32),
    lt_self_iff_false, if_false, readExact_exact, utf8Decode_encode_nil,
    i64ofRaw_i64Raw tx.amount h5 h6]

theorem from_bin_reader_short (bs : List Nat) (h : bs.length < 4) :
    from_bin_reader bs = .ok [] := by
  rw [from_bin_reader]
  rw [dif_pos h]

theorem from_bin_reader_bad_magic (bs : List Nat) (h4 : 4 ≤ bs.length)
    (hm : bs.take 4 ≠ magicBytes) :
    from_bin_reader bs = .error (.ParseErr "Invalid MAGIC number") := by
  rw [from_bin_reader]
  rw [dif_neg (by omega), if_pos hm]

theorem from_bin_reader_frame (tx : TxData) (rest : List Nat) (h : ValidTx tx) :
    from_bin_reader (magicBytes ++ u32be (binBody tx).length ++ binBody tx ++ rest) =
      match from_bin_reader rest with
      | .ok txs => .ok ({ tx with format := Format.YpBankBin } :: txs)
      | .error e => .error e := by
  have h7 : (utf8Encode tx.description).length + 46 < 2 ^ 32 := h.2.2.2.2.2.2
  have hblen : (binBody tx).length < 2 ^ 32 := by
    rw [binBody_length]
    omega
  simp only [List.append_assoc]
  rw [from_bin_reader]
  rw [dif_neg (by simp [magicBytes])]
  rw [take_append_len magicBytes _ 4 rfl, drop_append_len magicBytes _ 4 rfl]
  rw [if_neg (fun hh => hh rfl)]
  rw [dif_neg (by simp [u32be_length])]
  rw [take_append_len (u32be (binBody tx).length) _ 4 rfl,
    drop_append_len (u32be (binBody tx).length) _ 4 rfl]
  rw [beVal_u32be _ hblen]
  rw [dif_neg (by simp)]
  rw [take_append_len (binBody tx) rest _ rfl, drop_append_len (binBody tx) rest _ rfl]
  rw [from_bin_binBody tx h]
  cases from_bin_reader rest <;> rfl

theorem eta_format_bin (tx : TxData) (hf : tx.format = Format.YpBankBin) :
    { tx with format := Format.YpBankBin } = tx := by
  cases tx
  simp only at hf
  simp [hf]

theorem from_bin_reader_many (txs : List TxData) (extra : List Nat)
    (hv : ∀ tx ∈ txs, ValidTx tx ∧ tx.format = Format.YpBankBin) (he : extra.length < 4) :
    ∃ bs, to_bin_many txs = .ok bs ∧ from_bin_reader (bs ++ extra) = .ok txs := by
  induction txs with
  | nil =>
    refine ⟨[], rfl, ?_⟩
    rw [List.nil_append]
    exact from_bin_reader_short extra he
  | cons tx t ih =>
    obtain ⟨bs, hbs, hdec⟩ := ih (fun x hx => hv x (List.mem_cons_of_mem _ hx))
    obtain ⟨hvtx, hfmt⟩ := hv tx (List.mem_cons_self _ _)
    refine ⟨magicBytes ++ u32be (binBody tx).length ++ binBody tx ++ bs, ?_, ?_⟩
    · simp only [to_bin_many, to_bin, hbs, List.append_assoc]
    · have := from_bin_reader_frame tx (bs ++ extra) hvtx
      simp only [List.append_assoc] at this ⊢
      rw [this, hdec, eta_format_bin tx hfmt]

/-! ## Claim theorems (with their helper lemmas above) -/

/-- C6: for every binary record body whose fixed fields parse (valid type and
status codes) and whose declared description_len exceeds the bytes remaining
after the 46 fixed bytes, from_bin fails with the descriptive error
"DESCRIPTION length exceeds body" (and the reader never reads past the body).
-/
theorem bin_desc_len_overrun_rejected
    (txid fu tu am ts ty st dl : Nat) (tail : List Nat)
    (hid : txid < 2 ^ 64) (hfu : fu < 2 ^ 64) (htu : tu < 2 ^ 64) (ham : am < 2 ^ 64)
    (hts : ts < 2 ^ 64) (hty : ty < 3) (hst : st < 3) (hdl : dl < 2 ^ 32)
    (hover : tail.length < dl) :
    from_bin (u64be txid ++ [ty] ++ u64be fu ++ u64be tu ++ u64be am ++ u64be ts ++ [st] ++
      u32be dl ++ tail) = .error (.ParseErr "DESCRIPTION length exceeds body") := by
  unfold from_bin
  interval_cases ty <;> interval_cases st <;>
    simp only [List.append_assoc, List.cons_append, List.singleton_append, List.nil_append,
      readBE8_append _ _ hid, readByte, decodeTxTypeByte, decodeStatusByte,
      readBE8_append _ _ hfu, readBE8_append _ _ htu, readBE8_append _ _ ham,
      readBE8_append _ _ hts, readBE4_append _ _ hdl, if_pos hover]

/-- C6 witness: a 46-byte body declaring a 5-byte description with zero bytes
remaining is rejected with the descriptive error. -/
theorem bin_desc_len_overrun_rejected_witness :
    from_bin (u64be 1 ++ [0] ++ u64be 2 ++ u64be 3 ++ u64be 4 ++ u64be 5 ++ [1] ++
      u32be 5 ++ []) = .error (.ParseErr "DESCRIPTION length exceeds body") :=
  bin_desc_len_overrun_rejected 1 2 3 4 5 0 1 5 [] (by decide) (by decide) (by decide)
    (by decide) (by decide) (by decide) (by decide) (by decide) (by decide)

/-- C8: decoding zero bytes yields the empty record sequence for the binary
and text stream decoders, while the line-oriented CSV decoder on an empty
line list fails with "CSV is empty". -/
theorem empty_input_decode :
    from_bin_reader [] = .ok [] ∧ from_text_reader [] = .ok [] ∧
      from_csv_many [] = .error (.ParseErr "CSV is empty") :=
  ⟨from_bin_reader_short [] (by simp), by decide, by decide⟩

/-- C9: a stream made of well-formed records followed by up to 3 leftover
bytes decodes to exactly those records (the leftover bytes are silently
discarded, and in particular a failure to read a full 4-byte magic ends the
loop successfully), while a successfully read 4-byte group that differs from
"YPBN" fails with the Invalid MAGIC error. -/
theorem bin_reader_partial_magic_and_invalid_magic :
    (∀ (txs : List TxData) (extra : List Nat),
        (∀ tx ∈ txs, ValidTx tx ∧ tx.format = Format.YpBankBin) → extra.length < 4 →
          ∃ bs, to_bin_many txs = .ok bs ∧ from_bin_reader (bs ++ extra) = .ok txs) ∧
      (∀ bs : List Nat, 4 ≤ bs.length → bs.take 4 ≠ magicBytes →
        from_bin_reader bs = .error (.ParseErr "Invalid MAGIC number")) :=
  ⟨from_bin_reader_many, from_bin_reader_bad_magic⟩

set_option maxRecDepth 100000 in
/-- C9 witness: one record followed by 3 junk bytes decodes to that record,
and a 5-byte stream with a wrong magic is rejected. -/
theorem bin_reader_partial_magic_witness :
    (∃ bs, to_bin_many [exBin] = .ok bs ∧ from_bin_reader (bs ++ [7, 8, 9]) = .ok [exBin]) ∧
      from_bin_reader [1, 2, 3, 4, 5] = .error (.ParseErr "Invalid MAGIC number") :=
  ⟨bin_reader_partial_magic_and_invalid_magic.1 [exBin] [7, 8, 9] (by decide) (by decide),
    bin_reader_partial_magic_and_invalid_magic.2 [1, 2, 3, 4, 5] (by decide) (by decide)⟩

/-- C10: single-record encoding is total: to_bin, to_csv and to_text return
Ok for every record value. -/
theorem encode_total (tx : TxData) :
    (to_bin tx).isOk = true ∧ (to_csv tx).isOk = true ∧ (to_text tx).isOk = true :=
  ⟨rfl, rfl, rfl⟩

/-- C4: records equal in all 8 semantic fields but carrying different format
provenance tags (CSV vs binary) are not equal, and the comparer logic reports
the two singleton sequences as not equal. -/
theorem format_provenance_inequality (t1 t2 : TxData)
    (h1 : t1.tx_id = t2.tx_id) (h2 : t1.tx_type = t2.tx_type)
    (h3 : t1.from_user_id = t2.from_user_id) (h4 : t1.to_user_id = t2.to_user_id)
    (h5 : t1.amount = t2.amount) (h6 : t1.timestamp = t2.timestamp)
    (h7 : t1.status = t2.status) (h8 : t1.description = t2.description)
    (hf1 : t1.format = Format.YpBankCsv) (hf2 : t2.format = Format.YpBankBin) :
    t1 ≠ t2 ∧ process_comparer_logic (.ok [t1]) (.ok [t2]) = .ok { result := false } := by
  have hne : t1 ≠ t2 := by
    intro he
    rw [he, hf2] at hf1
    cases hf1
  refine ⟨hne, ?_⟩
  simp only [process_comparer_logic]
  rw [if_neg (fun hh => hne (List.cons.injEq .. |>.mp hh).1)]

/-- C4 witness: the example record and its binary-provenance twin are unequal
and compare as not equal. -/
theorem format_provenance_inequality_witness :
    exCsv ≠ { exCsv with format := Format.YpBankBin } ∧
      process_comparer_logic (.ok [exCsv]) (.ok [{ exCsv with format := Format.YpBankBin }]) =
        .ok { result := false } :=
  format_provenance_inequality exCsv { exCsv with format := Format.YpBankBin }
    rfl rfl rfl rfl rfl rfl rfl rfl rfl rfl

/-- C5: if decoding the source fails, the converter returns that decode error
wrapped in Prepare and the destination effect trace is empty: the destination
is not created, truncated or written. -/
theorem convert_decode_failure_no_dest_effects (src : List Nat) (ff tf : Format)
    (e : ParserErr) (h : read_from_resource src ff = .error e) :
    process_convert_logic src ff tf = (.error (.Prepare e), []) := by
  unfold process_convert_logic
  rw [h]

/-- C5 witness: converting a binary stream with a corrupt magic to CSV fails
with the decode error and leaves no destination effects. -/
theorem convert_decode_failure_no_dest_effects_witness :
    process_convert_logic [1, 2, 3, 4, 5] Format.YpBankBin Format.YpBankCsv =
      (.error (.Prepare (.ParseErr "Invalid MAGIC number")), []) :=
  convert_decode_failure_no_dest_effects [1, 2, 3, 4, 5] Format.YpBankBin Format.YpBankCsv
    (.ParseErr "Invalid MAGIC number")
    (from_bin_reader_bad_magic [1, 2, 3, 4, 5] (by decide) (by decide))

/-- C7: from_csv_many fails with the Invalid-header error whenever the
trimmed first line differs from the canonical header line, producing no
records. -/
theorem csv_many_strict_header (lines : List (List Char)) (h0 : List Char)
    (t : List (List Char)) (hl : lines = h0 :: t) (hh : rustTrim h0 ≠ CSV_HEADER_LINE) :
    from_csv_many lines = .error (.ParseErr ("Invalid header: expected '" ++
      String.mk CSV_HEADER_LINE ++ "', got '" ++ String.mk h0 ++ "'")) := by
  subst hl
  simp only [from_csv_many]
  rw [if_pos hh]

set_option maxRecDepth 100000 in
/-- C7 witness: a header with the same column names in a different order is
rejected. -/
theorem csv_many_strict_header_witness :
    from_csv_many ["TX_TYPE,TX_ID,FROM_USER_ID,TO_USER_ID,AMOUNT,TIMESTAMP,STATUS,DESCRIPTION".data,
        "1,DEPOSIT,0,100,1000,1700000000,SUCCESS,\"d\"".data] =
      .error (.ParseErr ("Invalid header: expected '" ++ String.mk CSV_HEADER_LINE ++
        "', got '" ++
        String.mk "TX_TYPE,TX_ID,FROM_USER_ID,TO_USER_ID,AMOUNT,TIMESTAMP,STATUS,DESCRIPTION".data ++
        "'")) :=
  csv_many_strict_header _ _ _ rfl (by decide)

set_option maxRecDepth 100000 in
/-- C2: the dispatch write path with target YpBankCsv emits exactly the bare
per-record line (its own CSV reader's header is not a prefix of the output),
although to_csv_many does emit the header first: the converter's CSV output
does not begin with the canonical header line. -/
theorem dispatch_csv_write_omits_header :
    ∃ line, to_csv exCsv = .ok line ∧
      write_to_resource [exCsv] Format.YpBankCsv =
        (.ok (), [.create, .writeAll (utf8Encode line), .flush]) ∧
      (utf8Encode CSV_HEADER_LINE).isPrefixOf (utf8Encode line) = false ∧
      to_csv_many [exCsv] = .ok (CSV_HEADER_LINE ++ Char.ofNat 10 :: (line ++ [Char.ofNat 10])) :=
  ⟨_, rfl, by decide, by decide, by decide⟩

set_option maxRecDepth 100000 in
/-- C3: to_text_many joins consecutive record blocks with a single newline
(no blank line), and decoding its two-record output with from_text_many
therefore merges the blocks into one record: the second block's values
overwrite the first's. -/
theorem text_many_single_newline_separator :
    ∃ b1 b2, to_text exText = .ok b1 ∧ to_text exText2 = .ok b2 ∧
      to_text_many [exText, exText2] = .ok (b1 ++ Char.ofNat 10 :: b2) ∧
      from_text_many (rustLines (b1 ++ Char.ofNat 10 :: b2)) = .ok [exText2] :=
  ⟨_, _, rfl, rfl, by decide, by decide⟩

set_option maxRecDepth 100000 in
/-- C1 counterexample: a record whose description contains a newline fails
the text round-trip: the continuation of the DESCRIPTION value becomes a line
without a colon and from_text_many rejects it, so decode(encode(record)) is
an error, not the record. -/
theorem text_roundtrip_newline_fails :
    ∃ s, to_text exTextNl = .ok s ∧
      from_text_many (rustLines s) =
        .error (.ParseErr "Invalid key-value on line 9: b\"") :=
  ⟨_, rfl, by decide⟩

/-! ## CSV round-trip lemmas -/

theorem char_ne_of_toNat {c d : Char} (h : c.toNat ≠ d.toNat) : c ≠ d := by
  intro he
  exact h (by rw [he])

theorem doubleQuotes_no_quote (s : List Char) (h : '"' ∉ s) : doubleQuotes s = s := by
  induction s with
  | nil => rfl
  | cons c t ih =>
    rw [doubleQuotes, if_neg (by intro he; exact h (he ▸ List.mem_cons_self c t))]
    rw [ih (fun hm => h (List.mem_cons_of_mem c hm))]

theorem escape_eq_doubleQuotes (s : List Char) : escape_csv_field s = doubleQuotes s := by
  unfold escape_csv_field
  split_ifs with h
  · rfl
  · simp only [Bool.or_eq_true, not_or] at h
    rw [doubleQuotes_no_quote s (fun hm => h.1.1 (List.elem_eq_true_of_mem hm))]

theorem csvSplitRecs_plain (xs : List Char) :
    ∀ (rest cur : List Char) (acc : List (List Char)),
      (∀ c ∈ xs, c ≠ '"' ∧ c ≠ Char.ofNat 10 ∧ c ≠ Char.ofNat 13) →
      csvSplitRecs (xs ++ rest) false cur acc = csvSplitRecs rest false (xs.reverse ++ cur) acc := by
  induction xs with
  | nil => intro rest cur acc h; simp
  | cons c t ih =>
    intro rest cur acc h
    obtain ⟨h1, h2, h3⟩ := h c (List.mem_cons_self c t)
    rw [List.cons_append, csvSplitRecs, if_neg h1, if_neg (by simp [h2, h3])]
    rw [ih rest (c :: cur) acc (fun x hx => h x (List.mem_cons_of_mem c hx))]
    simp

theorem csvSplitRecs_quoted (d : List Char) :
    ∀ (rest cur : List Char) (acc : List (List Char)),
      csvSplitRecs (doubleQuotes d ++ rest) true cur acc =
        csvSplitRecs rest true ((doubleQuotes d).reverse ++ cur) acc := by
  induction d with
  | nil => intro rest cur acc; simp [doubleQuotes]
  | cons c t ih =>
    intro rest cur acc
    by_cases hc : c = '"'
    · subst hc
      rw [doubleQuotes, if_pos rfl]
      rw [List.cons_append, List.cons_append, csvSplitRecs]
      rw [show (decide ¬('"' = '"')) = false by decide]
      rw [csvSplitRecs, if_pos rfl]
      rw [ih rest _ acc]
      simp [doubleQuotes]
    · rw [doubleQuotes, if_neg hc]
      rw [List.cons_append, csvSplitRecs]
      rw [show (decide ¬(c = '"')) = true by simp [hc]]
      rw [ih rest _ acc]
      simp [doubleQuotes, if_neg hc]

theorem csvSplitRecs_single (line : List Char)
    (pre post : List Char) (d : List Char)
    (hline : line = pre ++ '"' :: (doubleQuotes d ++ ['"']) ++ post)
    (hpre : ∀ c ∈ pre, c ≠ '"' ∧ c ≠ Char.ofNat 10 ∧ c ≠ Char.ofNat 13)
    (hpost : ∀ c ∈ post, c ≠ '"' ∧ c ≠ Char.ofNat 10 ∧ c ≠ Char.ofNat 13) :
    csvSplitRecs line false [] [] = [line] := by
  subst hline
  simp only [List.append_assoc, List.cons_append]
  rw [csvSplitRecs_plain pre _ [] [] hpre]
  rw [csvSplitRecs]
  rw [if_pos rfl]
  rw [csvSplitRecs_quoted d _ _ _]
  simp only [List.nil_append]
  rw [csvSplitRecs]
  rw [show (decide ¬('"' = '"')) = false by decide]
  rw [← List.append_nil post]
  rw [csvSplitRecs_plain post [] _ _ hpost]
  rw [csvSplitRecs]
  rw [if_neg (by simp)]
  simp

theorem csvRecFieldsGo_one (xs : List Char) :
    ∀ (rest fld : List Char) (fs : List (List Char)), (∀ c ∈ xs, c ≠ ',') →
      csvRecFieldsGo (xs ++ rest) 1 fld fs = csvRecFieldsGo rest 1 (xs.reverse ++ fld) fs := by
  induction xs with
  | nil => intro rest fld fs _; simp
  | cons c t ih =>
    intro rest fld fs h
    have hc := h c (List.mem_cons_self c t)
    rw [List.cons_append]
    show (if c = ',' then csvRecFieldsGo (t ++ rest) 0 [] (fld.reverse :: fs)
        else csvRecFieldsGo (t ++ rest) 1 (c :: fld) fs) = _
    rw [if_neg hc, ih rest (c :: fld) fs (fun x hx => h x (List.mem_cons_of_mem c hx))]
    simp

theorem csvRecFieldsGo_two (d : List Char) :
    ∀ (rest fld : List Char) (fs : List (List Char)),
      csvRecFieldsGo (doubleQuotes d ++ rest) 2 fld fs =
        csvRecFieldsGo rest 2 (d.reverse ++ fld) fs := by
  induction d with
  | nil => intro rest fld fs; simp [doubleQuotes]
  | cons c t ih =>
    intro rest fld fs
    by_cases hc : c = '"'
    · subst hc
      rw [doubleQuotes, if_pos rfl, List.cons_append, List.cons_append]
      show csvRecFieldsGo ('"' :: (doubleQuotes t ++ rest)) 3 fld fs = _
      show csvRecFieldsGo (doubleQuotes t ++ rest) 2 ('"' :: fld) fs = _
      rw [ih rest ('"' :: fld) fs]
      simp
    · rw [doubleQuotes, if_neg hc, List.cons_append]
      show (if c = '"' then csvRecFieldsGo (doubleQuotes t ++ rest) 3 fld fs
          else csvRecFieldsGo (doubleQuotes t ++ rest) 2 (c :: fld) fs) = _
      rw [if_neg hc, ih rest (c :: fld) fs]
      simp

theorem csvRecFieldsGo_field (a : List Char) (rest : List Char) (fs : List (List Char))
    (hne : a ≠ []) (hnc : ∀ c ∈ a, c ≠ ',' ∧ c ≠ '"') :
    csvRecFieldsGo (a ++ ',' :: rest) 0 [] fs = csvRecFieldsGo rest 0 [] (a :: fs) := by
  rcases a with _ | ⟨c, t⟩
  · exact absurd rfl hne
  · obtain ⟨hc1, hc2⟩ := hnc c (List.mem_cons_self c t)
    rw [List.cons_append]
    show (if c = '"' then csvRecFieldsGo (t ++ ',' :: rest) 2 [] fs
        else if c = ',' then csvRecFieldsGo (t ++ ',' :: rest) 0 [] ([].reverse :: fs)
        else csvRecFieldsGo (t ++ ',' :: rest) 1 (c :: []) fs) = _
    rw [if_neg hc2, if_neg hc1]
    rw [csvRecFieldsGo_one t (',' :: rest) [c] fs
      (fun x hx => (hnc x (List.mem_cons_of_mem c hx)).1)]
    show csvRecFieldsGo rest 0 [] ((t.reverse ++ [c]).reverse :: fs) = _
    simp

theorem csvRecFieldsGo_qfield (d : List Char) (fs : List (List Char)) :
    csvRecFieldsGo ('"' :: (doubleQuotes d ++ ['"'])) 0 [] fs = (d :: fs).reverse := by
  show csvRecFieldsGo (doubleQuotes d ++ ['"']) 2 [] fs = _
  rw [csvRecFieldsGo_two d ['"'] [] fs]
  simp [csvRecFieldsGo]

theorem csvRecFields_full (a1 a2 a3 a4 a5 a6 a7 d : List Char)
    (h1 : a1 ≠ [] ∧ ∀ c ∈ a1, c ≠ ',' ∧ c ≠ '"')
    (h2 : a2 ≠ [] ∧ ∀ c ∈ a2, c ≠ ',' ∧ c ≠ '"')
    (h3 : a3 ≠ [] ∧ ∀ c ∈ a3, c ≠ ',' ∧ c ≠ '"')
    (h4 : a4 ≠ [] ∧ ∀ c ∈ a4, c ≠ ',' ∧ c ≠ '"')
    (h5 : a5 ≠ [] ∧ ∀ c ∈ a5, c ≠ ',' ∧ c ≠ '"')
    (h6 : a6 ≠ [] ∧ ∀ c ∈ a6, c ≠ ',' ∧ c ≠ '"')
    (h7 : a7 ≠ [] ∧ ∀ c ∈ a7, c ≠ ',' ∧ c ≠ '"') :
    csvRecFields (a1 ++ ',' :: (a2 ++ ',' :: (a3 ++ ',' :: (a4 ++ ',' :: (a5 ++ ',' ::
      (a6 ++ ',' :: (a7 ++ ',' :: ('"' :: (doubleQuotes d ++ ['"']))))))))) =
      [a1, a2, a3, a4, a5, a6, a7, d] := by
  unfold csvRecFields
  rw [csvRecFieldsGo_field a1 _ _ h1.1 h1.2, csvRecFieldsGo_field a2 _ _ h2.1 h2.2,
    csvRecFieldsGo_field a3 _ _ h3.1 h3.2, csvRecFieldsGo_field a4 _ _ h4.1 h4.2,
    csvRecFieldsGo_field a5 _ _ h5.1 h5.2, csvRecFieldsGo_field a6 _ _ h6.1 h6.2,
    csvRecFieldsGo_field a7 _ _ h7.1 h7.2, csvRecFieldsGo_qfield]
  simp

theorem natDec_ne_special (n : Nat) :
    ∀ c ∈ natDec n, c ≠ '"' ∧ c ≠ Char.ofNat 10 ∧ c ≠ Char.ofNat 13 ∧ c ≠ ',' := by
  intro c hc
  have hd := natDec_digits n c hc
  refine ⟨char_ne_of_toNat ?_, char_ne_of_toNat ?_, char_ne_of_toNat ?_, char_ne_of_toNat ?_⟩
  · rw [show ('"' : Char).toNat = 34 from rfl]; omega
  · rw [show (Char.ofNat 10).toNat = 10 from rfl]; omega
  · rw [show (Char.ofNat 13).toNat = 13 from rfl]; omega
  · rw [show (',' : Char).toNat = 44 from rfl]; omega

theorem intDec_vals (i : Int) :
    ∀ c ∈ intDec i, c.toNat = 45 ∨ (48 ≤ c.toNat ∧ c.toNat ≤ 57) := by
  intro c hc
  unfold intDec at hc
  split_ifs at hc with h
  · rcases List.mem_cons.mp hc with rfl | hm
    · left; rw [show (Char.ofNat 45).toNat = 45 from rfl]
    · right; exact natDec_digits _ c hm
  · right; exact natDec_digits _ c hc

theorem intDec_ne_special (i : Int) :
    ∀ c ∈ intDec i, c ≠ '"' ∧ c ≠ Char.ofNat 10 ∧ c ≠ Char.ofNat 13 ∧ c ≠ ',' := by
  intro c hc
  have hd := intDec_vals i c hc
  refine ⟨char_ne_of_toNat ?_, char_ne_of_toNat ?_, char_ne_of_toNat ?_, char_ne_of_toNat ?_⟩
  · rw [show ('"' : Char).toNat = 34 from rfl]; omega
  · rw [show (Char.ofNat 10).toNat = 10 from rfl]; omega
  · rw [show (Char.ofNat 13).toNat = 13 from rfl]; omega
  · rw [show (',' : Char).toNat = 44 from rfl]; omega

theorem txTypeChars_ne_special (ty : TxType) :
    ∀ c ∈ txTypeChars ty, c ≠ '"' ∧ c ≠ Char.ofNat 10 ∧ c ≠ Char.ofNat 13 ∧ c ≠ ',' := by
  cases ty <;> decide

theorem statusChars_ne_special (st : Status) :
    ∀ c ∈ statusChars st, c ≠ '"' ∧ c ≠ Char.ofNat 10 ∧ c ≠ Char.ofNat 13 ∧ c ≠ ',' := by
  cases st <;> decide

theorem intDec_ne_nil (i : Int) : intDec i ≠ [] := by
  unfold intDec
  split_ifs
  · simp
  · exact natDec_ne_nil _

theorem txTypeChars_ne_nil (ty : TxType) : txTypeChars ty ≠ [] := by
  cases ty <;> decide

theorem statusChars_ne_nil (st : Status) : statusChars st ≠ [] := by
  cases st <;> decide

theorem parse_tx_type_chars (ty : TxType) : parse_tx_type_str (txTypeChars ty) = .ok ty := by
  cases ty <;> decide

theorem parse_status_chars (st : Status) : parse_status_str (statusChars st) = .ok st := by
  cases st <;> decide

theorem eta_format_csv (tx : TxData) (hf : tx.format = Format.YpBankCsv) :
    { tx with format := Format.YpBankCsv } = tx := by
  cases tx
  simp only at hf
  simp [hf]

theorem pre_line_no_special (tx : TxData) :
    ∀ c ∈ (natDec tx.tx_id ++ ',' :: (txTypeChars tx.tx_type ++ ',' :: (natDec tx.from_user_id ++
      ',' :: (natDec tx.to_user_id ++ ',' :: (intDec tx.amount ++ ',' :: (natDec tx.timestamp ++
      ',' :: (statusChars tx.status ++ [',']))))))),
      c ≠ '"' ∧ c ≠ Char.ofNat 10 ∧ c ≠ Char.ofNat 13 := by
  intro c hc
  simp only [List.mem_append, List.mem_cons, List.mem_singleton, List.not_mem_nil,
    or_false] at hc
  rcases hc with hc | rfl | hc | rfl | hc | rfl | hc | rfl | hc | rfl | hc | rfl | hc | rfl
  · exact ⟨(natDec_ne_special _ c hc).1, (natDec_ne_special _ c hc).2.1,
      (natDec_ne_special _ c hc).2.2.1⟩
  · exact (by decide)
  · exact ⟨(txTypeChars_ne_special _ c hc).1, (txTypeChars_ne_special _ c hc).2.1,
      (txTypeChars_ne_special _ c hc).2.2.1⟩
  · exact (by decide)
  · exact ⟨(natDec_ne_special _ c hc).1, (natDec_ne_special _ c hc).2.1,
      (natDec_ne_special _ c hc).2.2.1⟩
  · exact (by decide)
  · exact ⟨(natDec_ne_special _ c hc).1, (natDec_ne_special _ c hc).2.1,
      (natDec_ne_special _ c hc).2.2.1⟩
  · exact (by decide)
  · exact ⟨(intDec_ne_special _ c hc).1, (intDec_ne_special _ c hc).2.1,
      (intDec_ne_special _ c hc).2.2.1⟩
  · exact (by decide)
  · exact ⟨(natDec_ne_special _ c hc).1, (natDec_ne_special _ c hc).2.1,
      (natDec_ne_special _ c hc).2.2.1⟩
  · exact (by decide)
  · exact ⟨(statusChars_ne_special _ c hc).1, (statusChars_ne_special _ c hc).2.1,
      (statusChars_ne_special _ c hc).2.2.1⟩
  · exact (by decide)

theorem from_csv_to_csv (tx : TxData) (h : ValidTx tx) (hf : tx.format = Format.YpBankCsv) :
    ∃ s, to_csv tx = .ok s ∧ from_csv s = .ok tx := by
  obtain ⟨h1, h2, h3, h4, h5, h6, h7⟩ := h
  refine ⟨_, rfl, ?_⟩
  unfold from_csv csvRecords
  rw [escape_eq_doubleQuotes]
  simp only [List.append_assoc, List.cons_append, List.singleton_append, List.nil_append]
  rw [csvSplitRecs_single _
    (natDec tx.tx_id ++ ',' :: (txTypeChars tx.tx_type ++ ',' :: (natDec tx.from_user_id ++
      ',' :: (natDec tx.to_user_id ++ ',' :: (intDec tx.amount ++ ',' :: (natDec tx.timestamp ++
      ',' :: (statusChars tx.status ++ [','])))))))
    [] tx.description (by simp) (pre_line_no_special tx) (by simp)]
  simp only [List.map_cons, List.map_nil]
  rw [csvRecFields_full _ _ _ _ _ _ _ _
    ⟨natDec_ne_nil _, fun c hc => ⟨(natDec_ne_special _ c hc).2.2.2, (natDec_ne_special _ c hc).1⟩⟩
    ⟨txTypeChars_ne_nil _, fun c hc =>
      ⟨(txTypeChars_ne_special _ c hc).2.2.2, (txTypeChars_ne_special _ c hc).1⟩⟩
    ⟨natDec_ne_nil _, fun c hc => ⟨(natDec_ne_special _ c hc).2.2.2, (natDec_ne_special _ c hc).1⟩⟩
    ⟨natDec_ne_nil _, fun c hc => ⟨(natDec_ne_special _ c hc).2.2.2, (natDec_ne_special _ c hc).1⟩⟩
    ⟨intDec_ne_nil _, fun c hc => ⟨(intDec_ne_special _ c hc).2.2.2, (intDec_ne_special _ c hc).1⟩⟩
    ⟨natDec_ne_nil _, fun c hc => ⟨(natDec_ne_special _ c hc).2.2.2, (natDec_ne_special _ c hc).1⟩⟩
    ⟨statusChars_ne_nil _, fun c hc =>
      ⟨(statusChars_ne_special _ c hc).2.2.2, (statusChars_ne_special _ c hc).1⟩⟩]
  simp only [from_csv_record, parseU64_natDec _ h1, parse_tx_type_chars,
    parseU64_natDec _ h2, parseU64_natDec _ h3, parseI64_intDec _ h5 h6,
    parseU64_natDec _ h4, parse_status_chars]
  exact congrArg Except.ok (eta_format_csv tx hf)

/-! ## Text round-trip lemmas -/

theorem mem_of_getLast : ∀ {α : Type} {l : List α} {a : α}, l.getLast? = some a → a ∈ l := by
  intro α l
  induction l with
  | nil => intro a h; cases h
  | cons x t ih =>
    intro a h
    rcases t with _ | ⟨y, r⟩
    · simp at h
      simp [h]
    · rw [List.getLast?_cons_cons] at h
      exact List.mem_cons_of_mem _ (ih h)

theorem getLast?_append_ne {α : Type} (l1 l2 : List α) (h : l2 ≠ []) :
    (l1 ++ l2).getLast? = l2.getLast? := by
  rw [List.getLast?_append]
  have hs : l2.getLast?.isSome := by
    rw [List.getLast?_isSome]
    exact h
  obtain ⟨a, ha⟩ := Option.isSome_iff_exists.mp hs
  rw [ha]
  rfl

theorem splitOnChar_ne_nil (sep : Char) (cs : List Char) : splitOnChar sep cs ≠ [] := by
  induction cs with
  | nil => simp [splitOnChar]
  | cons c t ih =>
    rw [splitOnChar]
    split_ifs
    · simp
    · rcases hs : splitOnChar sep t with _ | ⟨hh, r⟩
      · exact absurd hs ih
      · simp

theorem splitOnChar_no_sep (sep : Char) (a : List Char) (h : sep ∉ a) :
    splitOnChar sep a = [a] := by
  induction a with
  | nil => rfl
  | cons c t ih =>
    rw [splitOnChar, if_neg (by intro he; exact h (he ▸ List.mem_cons_self c t))]
    rw [ih (fun hm => h (List.mem_cons_of_mem c hm))]

theorem splitOnChar_cons_sep (sep : Char) (rest : List Char) :
    splitOnChar sep (sep :: rest) = [] :: splitOnChar sep rest := by
  rw [splitOnChar, if_pos rfl]

theorem splitOnChar_append_no_sep (sep : Char) (a : List Char) :
    ∀ (rest : List Char), sep ∉ a →
      splitOnChar sep (a ++ rest) =
        (a ++ (splitOnChar sep rest).headD []) :: (splitOnChar sep rest).tail := by
  induction a with
  | nil =>
    intro rest h
    rcases hs : splitOnChar sep rest with _ | ⟨hh, r⟩
    · exact absurd hs (splitOnChar_ne_nil sep rest)
    · simp [hs]
  | cons c t ih =>
    intro rest h
    rw [List.cons_append, splitOnChar, if_neg (by intro he; exact h (he ▸ List.mem_cons_self c t))]
    rw [ih rest (fun hm => h (List.mem_cons_of_mem c hm))]
    simp

theorem splitOnChar_line (sep : Char) (a b rest : List Char) (ha : sep ∉ a) (hb : sep ∉ b) :
    splitOnChar sep (a ++ (b ++ (sep :: rest))) = (a ++ b) :: splitOnChar sep rest := by
  rw [splitOnChar_append_no_sep sep a _ ha, splitOnChar_append_no_sep sep b _ hb,
    splitOnChar_cons_sep]
  simp

theorem rustTrim_eq_self (cs : List Char)
    (hh : ∀ c, cs.head? = some c → isRustWs c = false)
    (hl : ∀ c, cs.getLast? = some c → isRustWs c = false) : rustTrim cs = cs := by
  rcases cs with _ | ⟨c, t⟩
  · rfl
  · have h1 : List.dropWhile isRustWs (c :: t) = c :: t := by
      rw [List.dropWhile_cons, if_neg (by simp [hh c rfl])]
    have h2 : List.dropWhile isRustWs (c :: t).reverse = (c :: t).reverse := by
      rcases hr : (c :: t).reverse with _ | ⟨d, r⟩
      · rfl
      · have hd : (c :: t).getLast? = some d := by
          rw [← List.head?_reverse, hr]
          rfl
        rw [List.dropWhile_cons, if_neg (by simp [hl d hd])]
    unfold rustTrim
    rw [h1, h2, List.reverse_reverse]

theorem rustTrim_ws_cons (c : Char) (cs : List Char) (h : isRustWs c = true) :
    rustTrim (c :: cs) = rustTrim cs := by
  unfold rustTrim
  rw [List.dropWhile_cons, if_pos h]

theorem splitAtColon_append (a b : List Char) (h : ':' ∉ a) :
    splitAtColon (a ++ ':' :: b) = some (a, b) := by
  induction a with
  | nil => simp [splitAtColon]
  | cons c t ih =>
    rw [List.cons_append, splitAtColon, if_neg (by intro he; exact h (he ▸ List.mem_cons_self c t))]
    rw [ih (fun hm => h (List.mem_cons_of_mem c hm))]

theorem stripCr_eq (cs : List Char) (h : cs.getLast? ≠ some (Char.ofNat 13)) :
    stripCr cs = cs := by
  unfold stripCr
  rcases hg : cs.getLast? with _ | c
  · rfl
  · show (if c = Char.ofNat 13 then cs.dropLast else cs) = cs
    rw [if_neg (by intro he; exact h (by rw [hg, he]))]

theorem getLast_ne_cr_of_all (l : List Char) (h : ∀ c ∈ l, c ≠ Char.ofNat 13) :
    l.getLast? ≠ some (Char.ofNat 13) :=
  fun he => h _ (mem_of_getLast he) rfl

theorem text_line_step (key value : List Char) (rest : List (List Char)) (i : Nat)
    (cur : List (List Char × List Char)) (acc : List TxData)
    (hkc : ':' ∉ key) (hkne : key ≠ []) (hkws : ∀ c ∈ key, isRustWs c = false)
    (hkhash : key.head? ≠ some '#')
    (hvne : value ≠ [])
    (hvh : ∀ c, value.head? = some c → isRustWs c = false)
    (hvl : ∀ c, value.getLast? = some c → isRustWs c = false) :
    from_text_many_go ((key ++ ':' :: ' ' :: value) :: rest) i cur acc =
      from_text_many_go rest (i + 1) (mapInsert key value cur) acc := by
  have hkhead : ∀ c, key.head? = some c → isRustWs c = false := by
    intro c hc
    rcases key with _ | ⟨k0, kt⟩
    · cases hc
    · simp only [List.head?_cons, Option.some.injEq] at hc
      exact hc ▸ hkws k0 (List.mem_cons_self k0 kt)
  have hklast : ∀ c, key.getLast? = some c → isRustWs c = false :=
    fun c hc => hkws c (mem_of_getLast hc)
  have hline : rustTrim (key ++ ':' :: ' ' :: value) = key ++ ':' :: ' ' :: value := by
    apply rustTrim_eq_self
    · intro c hc
      rcases key with _ | ⟨k0, kt⟩
      · exact absurd rfl hkne
      · simp only [List.cons_append, List.head?_cons, Option.some.injEq] at hc
        exact hc ▸ hkws k0 (List.mem_cons_self k0 kt)
    · intro c hc
      rw [getLast?_append_ne _ _ (by simp)] at hc
      rcases value with _ | ⟨v0, vt⟩
      · exact absurd rfl hvne
      · rw [show (':' :: ' ' :: v0 :: vt).getLast? = (v0 :: vt).getLast? by
          rw [List.getLast?_cons_cons, List.getLast?_cons_cons]] at hc
        exact hvl c hc
  have hcond : ¬(key ++ ':' :: ' ' :: value = [] ∨
      (key ++ ':' :: ' ' :: value).head? = some '#') := by
    rcases key with _ | ⟨k0, kt⟩
    · exact absurd rfl hkne
    · rw [not_or]
      exact ⟨by simp, by simpa using hkhash⟩
  simp only [from_text_many_go, hline]
  rw [if_neg hcond]
  simp only [splitAtColon_append key _ hkc]
  rw [rustTrim_eq_self key hkhead hklast, rustTrim_ws_cons ' ' value (by decide),
    rustTrim_eq_self value hvh hvl]

theorem from_text_built (v0 v1 v2 v3 v4 v5 v6 v7 : List Char) (tx : TxData)
    (p0 : parseU64 v0 = some tx.tx_id) (p1 : parse_tx_type_str v1 = .ok tx.tx_type)
    (p2 : parseU64 v2 = some tx.from_user_id) (p3 : parseU64 v3 = some tx.to_user_id)
    (p4 : parseI64 v4 = some tx.amount) (p5 : parseU64 v5 = some tx.timestamp)
    (p6 : parse_status_str v6 = .ok tx.status) (p7 : unquoteText v7 = tx.description)
    (hf : tx.format = Format.YpBankText) :
    from_text (mapInsert "DESCRIPTION".data v7 (mapInsert "STATUS".data v6
      (mapInsert "TIMESTAMP".data v5 (mapInsert "AMOUNT".data v4 (mapInsert "TO_USER_ID".data v3
      (mapInsert "FROM_USER_ID".data v2 (mapInsert "TX_TYPE".data v1
      (mapInsert "TX_ID".data v0 [])))))))) = .ok tx := by
  have hk01 : "TX_ID".data ≠ "TX_TYPE".data := by decide
  have hk02 : "TX_ID".data ≠ "FROM_USER_ID".data := by decide
  have hk03 : "TX_ID".data ≠ "TO_USER_ID".data := by decide
  have hk04 : "TX_ID".data ≠ "AMOUNT".data := by decide
  have hk05 : "TX_ID".data ≠ "TIMESTAMP".data := by decide
  have hk06 : "TX_ID".data ≠ "STATUS".data := by decide
  have hk07 : "TX_ID".data ≠ "DESCRIPTION".data := by decide
  have hk12 : "TX_TYPE".data ≠ "FROM_USER_ID".data := by decide
  have hk13 : "TX_TYPE".data ≠ "TO_USER_ID".data := by decide
  have hk14 : "TX_TYPE".data ≠ "AMOUNT".data := by decide
  have hk15 : "TX_TYPE".data ≠ "TIMESTAMP".data := by decide
  have hk16 : "TX_TYPE".data ≠ "STATUS".data := by decide
  have hk17 : "TX_TYPE".data ≠ "DESCRIPTION".data := by decide
  have hk23 : "FROM_USER_ID".data ≠ "TO_USER_ID".data := by decide
  have hk24 : "FROM_USER_ID".data ≠ "AMOUNT".data := by decide
  have hk25 : "FROM_USER_ID".data ≠ "TIMESTAMP".data := by decide
  have hk26 : "FROM_USER_ID".data ≠ "STATUS".data := by decide
  have hk27 : "FROM_USER_ID".data ≠ "DESCRIPTION".data := by decide
  have hk34 : "TO_USER_ID".data ≠ "AMOUNT".data := by decide
  have hk35 : "TO_USER_ID".data ≠ "TIMESTAMP".data := by decide
  have hk36 : "TO_USER_ID".data ≠ "STATUS".data := by decide
  have hk37 : "TO_USER_ID".data ≠ "DESCRIPTION".data := by decide
  have hk45 : "AMOUNT".data ≠ "TIMESTAMP".data := by decide
  have hk46 : "AMOUNT".data ≠ "STATUS".data := by decide
  have hk47 : "AMOUNT".data ≠ "DESCRIPTION".data := by decide
  have hk56 : "TIMESTAMP".data ≠ "STATUS".data := by decide
  have hk57 : "TIMESTAMP".data ≠ "DESCRIPTION".data := by decide
  have hk67 : "STATUS".data ≠ "DESCRIPTION".data := by decide
  have hmap : mapInsert "DESCRIPTION".data v7 (mapInsert "STATUS".data v6
      (mapInsert "TIMESTAMP".data v5 (mapInsert "AMOUNT".data v4 (mapInsert "TO_USER_ID".data v3
      (mapInsert "FROM_USER_ID".data v2 (mapInsert "TX_TYPE".data v1
      (mapInsert "TX_ID".data v0 []))))))) =
      [("TX_ID".data, v0), ("TX_TYPE".data, v1), ("FROM_USER_ID".data, v2),
        ("TO_USER_ID".data, v3), ("AMOUNT".data, v4), ("TIMESTAMP".data, v5),
        ("STATUS".data, v6), ("DESCRIPTION".data, v7)] := by
    simp [mapInsert, hk01, hk02, hk03, hk04, hk05, hk06, hk07, hk12, hk13, hk14, hk15, hk16, hk17, hk23, hk24, hk25, hk26, hk27, hk34, hk35, hk36, hk37, hk45, hk46, hk47, hk56, hk57, hk67]
  rw [hmap]
  simp only [from_text, assocGet, hk01, hk02, hk03, hk04, hk05, hk06, hk07, hk12, hk13, hk14, hk15, hk16, hk17, hk23, hk24, hk25, hk26, hk27, hk34, hk35, hk36, hk37, hk45, hk46, hk47, hk56, hk57, hk67, if_neg, if_pos, if_true, if_false,
    ite_true, ite_false, ne_eq, reduceIte, p0, p1, p2, p3, p4, p5, p6, p7]
  exact congrArg Except.ok (by
    cases tx
    simp only at hf
    simp [hf])

theorem mem_of_head {α : Type} {l : List α} {a : α} (h : l.head? = some a) : a ∈ l := by
  rcases l with _ | ⟨x, t⟩
  · cases h
  · simp only [List.head?_cons, Option.some.injEq] at h
    exact h ▸ List.mem_cons_self x t

theorem ws_false_of_range (c : Char) (h1 : 34 ≤ c.toNat) (h2 : c.toNat ≤ 57) :
    isRustWs c = false := by
  simp only [isRustWs, List.mem_cons, List.not_mem_nil, or_false, decide_eq_false_iff_not,
    not_or]
  omega

theorem natDec_not_ws (n : Nat) : ∀ c ∈ natDec n, isRustWs c = false := by
  intro c hc
  have := natDec_digits n c hc
  exact ws_false_of_range c (by omega) (by omega)

theorem intDec_not_ws (i : Int) : ∀ c ∈ intDec i, isRustWs c = false := by
  intro c hc
  have := intDec_vals i c hc
  exact ws_false_of_range c (by omega) (by omega)

theorem txTypeChars_not_ws (ty : TxType) : ∀ c ∈ txTypeChars ty, isRustWs c = false := by
  cases ty <;> decide

theorem statusChars_not_ws (st : Status) : ∀ c ∈ statusChars st, isRustWs c = false := by
  cases st <;> decide

theorem mapInsert_ne_nil (k v : List Char) (m : List (List Char × List Char)) :
    mapInsert k v m ≠ [] := by
  rcases m with _ | ⟨⟨k', v'⟩, t⟩
  · simp [mapInsert]
  · rw [mapInsert]
    split_ifs <;> simp

theorem unquote_quoted (d : List Char) : unquoteText ('"' :: (d ++ ['"'])) = d := by
  unfold unquoteText
  rw [if_pos ?_]
  · rw [List.drop_one, List.tail_cons, List.dropLast_concat]
  · refine ⟨by simp, by simp, ?_⟩
    rw [show ('"' :: (d ++ ['"'])) = ('"' :: d) ++ ['"'] by simp, List.getLast?_concat]

theorem nl_not_mem_natDec (n : Nat) : Char.ofNat 10 ∉ natDec n :=
  fun hm => (natDec_ne_special n _ hm).2.1 rfl

theorem nl_not_mem_intDec (i : Int) : Char.ofNat 10 ∉ intDec i :=
  fun hm => (intDec_ne_special i _ hm).2.1 rfl

theorem nl_not_mem_txTypeChars (ty : TxType) : Char.ofNat 10 ∉ txTypeChars ty :=
  fun hm => (txTypeChars_ne_special ty _ hm).2.1 rfl

theorem nl_not_mem_statusChars (st : Status) : Char.ofNat 10 ∉ statusChars st :=
  fun hm => (statusChars_ne_special st _ hm).2.1 rfl

theorem from_text_to_text (tx : TxData) (h : ValidTx tx) (hf : tx.format = Format.YpBankText)
    (hnl : Char.ofNat 10 ∉ tx.description) :
    ∃ s, to_text tx = .ok s ∧ from_text_many (rustLines s) = .ok [tx] := by
  obtain ⟨h1, h2, h3, h4, h5, h6, h7⟩ := h
  refine ⟨_, rfl, ?_⟩
  have hdescB : Char.ofNat 10 ∉ ('"' :: (tx.description ++ ['"'])) := by
    intro hm
    simp only [List.mem_cons, List.mem_append, List.mem_singleton] at hm
    rcases hm with hm | hm | hm
    · exact absurd hm (by decide)
    · exact hnl hm
    · exact absurd hm (by decide)
  have hlines : rustLines ("TX_ID: ".data ++ (natDec tx.tx_id ++ (Char.ofNat 10 ::
      ("TX_TYPE: ".data ++ (txTypeChars tx.tx_type ++ (Char.ofNat 10 ::
      ("FROM_USER_ID: ".data ++ (natDec tx.from_user_id ++ (Char.ofNat 10 ::
      ("TO_USER_ID: ".data ++ (natDec tx.to_user_id ++ (Char.ofNat 10 ::
      ("AMOUNT: ".data ++ (intDec tx.amount ++ (Char.ofNat 10 ::
      ("TIMESTAMP: ".data ++ (natDec tx.timestamp ++ (Char.ofNat 10 ::
      ("STATUS: ".data ++ (statusChars tx.status ++ (Char.ofNat 10 ::
      ("DESCRIPTION: ".data ++ ('"' :: (tx.description ++ ['"'])))))))))))))))))))))))) =
      ["TX_ID".data ++ ':' :: ' ' :: natDec tx.tx_id,
       "TX_TYPE".data ++ ':' :: ' ' :: txTypeChars tx.tx_type,
       "FROM_USER_ID".data ++ ':' :: ' ' :: natDec tx.from_user_id,
       "TO_USER_ID".data ++ ':' :: ' ' :: natDec tx.to_user_id,
       "AMOUNT".data ++ ':' :: ' ' :: intDec tx.amount,
       "TIMESTAMP".data ++ ':' :: ' ' :: natDec tx.timestamp,
       "STATUS".data ++ ':' :: ' ' :: statusChars tx.status,
       "DESCRIPTION".data ++ ':' :: ' ' :: ('"' :: (tx.description ++ ['"']))] := by
    unfold rustLines
    rw [if_neg (by
      intro he
      rw [List.append_eq_nil] at he
      exact absurd he.1 (by decide))]
    rw [splitOnChar_line _ _ _ _ (by decide) (nl_not_mem_natDec _),
      splitOnChar_line _ _ _ _ (by decide) (nl_not_mem_txTypeChars _),
      splitOnChar_line _ _ _ _ (by decide) (nl_not_mem_natDec _),
      splitOnChar_line _ _ _ _ (by decide) (nl_not_mem_natDec _),
      splitOnChar_line _ _ _ _ (by decide) (nl_not_mem_intDec _),
      splitOnChar_line _ _ _ _ (by decide) (nl_not_mem_natDec _),
      splitOnChar_line _ _ _ _ (by decide) (nl_not_mem_statusChars _),
      splitOnChar_no_sep _ _ (by
        intro hm
        rcases List.mem_append.mp hm with hm | hm
        · exact absurd hm (by decide)
        · exact hdescB hm)]
    rw [if_neg (by
      simp only [List.getLast?_cons_cons, List.getLast?_singleton, Option.some.injEq]
      intro he
      rw [List.append_eq_nil] at he
      exact absurd he.1 (by decide))]
    simp only [List.map_cons, List.map_nil]
    rw [stripCr_eq _ (by
        rw [getLast?_append_ne _ _ (natDec_ne_nil _)]
        exact getLast_ne_cr_of_all _ (fun c hc => (natDec_ne_special _ c hc).2.2.1)),
      stripCr_eq _ (by
        rw [getLast?_append_ne _ _ (txTypeChars_ne_nil _)]
        exact getLast_ne_cr_of_all _ (fun c hc => (txTypeChars_ne_special _ c hc).2.2.1)),
      stripCr_eq _ (by
        rw [getLast?_append_ne _ _ (natDec_ne_nil _)]
        exact getLast_ne_cr_of_all _ (fun c hc => (natDec_ne_special _ c hc).2.2.1)),
      stripCr_eq _ (by
        rw [getLast?_append_ne _ _ (natDec_ne_nil _)]
        exact getLast_ne_cr_of_all _ (fun c hc => (natDec_ne_special _ c hc).2.2.1)),
      stripCr_eq _ (by
        rw [getLast?_append_ne _ _ (intDec_ne_nil _)]
        exact getLast_ne_cr_of_all _ (fun c hc => (intDec_ne_special _ c hc).2.2.1)),
      stripCr_eq _ (by
        rw [getLast?_append_ne _ _ (natDec_ne_nil _)]
        exact getLast_ne_cr_of_all _ (fun c hc => (natDec_ne_special _ c hc).2.2.1)),
      stripCr_eq _ (by
        rw [getLast?_append_ne _ _ (statusChars_ne_nil _)]
        exact getLast_ne_cr_of_all _ (fun c hc => (statusChars_ne_special _ c hc).2.2.1)),
      stripCr_eq _ (by
        rw [getLast?_append_ne _ _ (by simp),
          show ('"' :: (tx.description ++ ['"'])) = ('"' :: tx.description) ++ ['"'] by simp,
          List.getLast?_concat]
        decide)]
    simp only [show "TX_ID: ".data = "TX_ID".data ++ [':', ' '] from by decide,
      show "TX_TYPE: ".data = "TX_TYPE".data ++ [':', ' '] from by decide,
      show "FROM_USER_ID: ".data = "FROM_USER_ID".data ++ [':', ' '] from by decide,
      show "TO_USER_ID: ".data = "TO_USER_ID".data ++ [':', ' '] from by decide,
      show "AMOUNT: ".data = "AMOUNT".data ++ [':', ' '] from by decide,
      show "TIMESTAMP: ".data = "TIMESTAMP".data ++ [':', ' '] from by decide,
      show "STATUS: ".data = "STATUS".data ++ [':', ' '] from by decide,
      show "DESCRIPTION: ".data = "DESCRIPTION".data ++ [':', ' '] from by decide,
      List.append_assoc, List.cons_append, List.nil_append]
  unfold from_text_many
  rw [show ("TX_ID: ".data ++ natDec tx.tx_id ++ Char.ofNat 10 ::
      "TX_TYPE: ".data ++ txTypeChars tx.tx_type ++ Char.ofNat 10 ::
      "FROM_USER_ID: ".data ++ natDec tx.from_user_id ++ Char.ofNat 10 ::
      "TO_USER_ID: ".data ++ natDec tx.to_user_id ++ Char.ofNat 10 ::
      "AMOUNT: ".data ++ intDec tx.amount ++ Char.ofNat 10 ::
      "TIMESTAMP: ".data ++ natDec tx.timestamp ++ Char.ofNat 10 ::
      "STATUS: ".data ++ statusChars tx.status ++ Char.ofNat 10 ::
      "DESCRIPTION: ".data ++ '"' :: tx.description ++ ['"']) =
      ("TX_ID: ".data ++ (natDec tx.tx_id ++ (Char.ofNat 10 ::
      ("TX_TYPE: ".data ++ (txTypeChars tx.tx_type ++ (Char.ofNat 10 ::
      ("FROM_USER_ID: ".data ++ (natDec tx.from_user_id ++ (Char.ofNat 10 ::
      ("TO_USER_ID: ".data ++ (natDec tx.to_user_id ++ (Char.ofNat 10 ::
      ("AMOUNT: ".data ++ (intDec tx.amount ++ (Char.ofNat 10 ::
      ("TIMESTAMP: ".data ++ (natDec tx.timestamp ++ (Char.ofNat 10 ::
      ("STATUS: ".data ++ (statusChars tx.status ++ (Char.ofNat 10 ::
      ("DESCRIPTION: ".data ++ ('"' :: (tx.description ++ ['"'])))))))))))))))))))))))) from by
    simp only [List.append_assoc, List.cons_append, List.nil_append]]
  rw [hlines]
  rw [text_line_step _ _ _ _ _ _ (by decide) (by decide) (by decide) (by decide)
      (natDec_ne_nil _) (fun c hc => natDec_not_ws _ c (mem_of_head hc))
      (fun c hc => natDec_not_ws _ c (mem_of_getLast hc)),
    text_line_step _ _ _ _ _ _ (by decide) (by decide) (by decide) (by decide)
      (txTypeChars_ne_nil _) (fun c hc => txTypeChars_not_ws _ c (mem_of_head hc))
      (fun c hc => txTypeChars_not_ws _ c (mem_of_getLast hc)),
    text_line_step _ _ _ _ _ _ (by decide) (by decide) (by decide) (by decide)
      (natDec_ne_nil _) (fun c hc => natDec_not_ws _ c (mem_of_head hc))
      (fun c hc => natDec_not_ws _ c (mem_of_getLast hc)),
    text_line_step _ _ _ _ _ _ (by decide) (by decide) (by decide) (by decide)
      (natDec_ne_nil _) (fun c hc => natDec_not_ws _ c (mem_of_head hc))
      (fun c hc => natDec_not_ws _ c (mem_of_getLast hc)),
    text_line_step _ _ _ _ _ _ (by decide) (by decide) (by decide) (by decide)
      (intDec_ne_nil _) (fun c hc => intDec_not_ws _ c (mem_of_head hc))
      (fun c hc => intDec_not_ws _ c (mem_of_getLast hc)),
    text_line_step _ _ _ _ _ _ (by decide) (by decide) (by decide) (by decide)
      (natDec_ne_nil _) (fun c hc => natDec_not_ws _ c (mem_of_head hc))
      (fun c hc => natDec_not_ws _ c (mem_of_getLast hc)),
    text_line_step _ _ _ _ _ _ (by decide) (by decide) (by decide) (by decide)
      (statusChars_ne_nil _) (fun c hc => statusChars_not_ws _ c (mem_of_head hc))
      (fun c hc => statusChars_not_ws _ c (mem_of_getLast hc)),
    text_line_step _ _ _ _ _ _ (by decide) (by decide) (by decide) (by decide)
      (by simp)
      (by
        intro c hc
        simp only [List.head?_cons, Option.some.injEq] at hc
        rw [← hc]
        decide)
      (by
        intro c hc
        rw [show ('"' :: (tx.description ++ ['"'])) = ('"' :: tx.description) ++ ['"'] by simp,
          List.getLast?_concat] at hc
        simp only [Option.some.injEq] at hc
        rw [← hc]
        decide)]
  simp only [from_text_many_go]
  rw [if_neg (mapInsert_ne_nil _ _ _)]
  rw [from_text_built _ _ _ _ _ _ _ _ tx (parseU64_natDec _ h1) (parse_tx_type_chars _)
    (parseU64_natDec _ h2) (parseU64_natDec _ h3) (parseI64_intDec _ h5 h6)
    (parseU64_natDec _ h4) (parse_status_chars _) (unquote_quoted _) hf]
  rfl

/-- C1 (amended): decode-after-encode returns the original record for the
binary codec (from_bin_reader after to_bin) and the CSV codec (from_csv after
to_csv) for every valid record of the matching format — including negative
amounts, emoji/combining-mark descriptions and empty descriptions — and for
the text codec (from_text_many after to_text) under the additional assumption
that the description contains no newline character. -/
theorem roundtrip_decode_encode :
    (∀ tx : TxData, ValidTx tx → tx.format = Format.YpBankBin →
      ∃ bs, to_bin tx = .ok bs ∧ from_bin_reader bs = .ok [tx]) ∧
    (∀ tx : TxData, ValidTx tx → tx.format = Format.YpBankCsv →
      ∃ s, to_csv tx = .ok s ∧ from_csv s = .ok tx) ∧
    (∀ tx : TxData, ValidTx tx → tx.format = Format.YpBankText →
      Char.ofNat 10 ∉ tx.description →
      ∃ s, to_text tx = .ok s ∧ from_text_many (rustLines s) = .ok [tx]) := by
  refine ⟨?_, ?_, ?_⟩
  · intro tx h hf
    obtain ⟨bs, hb, hr⟩ := from_bin_reader_many [tx] []
      (by
        intro t ht
        rw [List.mem_singleton.mp ht]
        exact ⟨h, hf⟩)
      (by decide)
    rw [List.append_nil] at hr
    have hb' : to_bin_many [tx] =
        .ok ((magicBytes ++ u32be (binBody tx).length ++ binBody tx) ++ []) := rfl
    rw [hb'] at hb
    rw [List.append_nil] at hb
    exact ⟨bs, hb, hr⟩
  · intro tx h hf
    exact from_csv_to_csv tx h hf
  · intro tx h hf hnl
    exact from_text_to_text tx h hf hnl

theorem roundtrip_decode_encode_witness :
    (∃ bs, to_bin exBin = .ok bs ∧ from_bin_reader bs = .ok [exBin]) ∧
    (∃ s, to_csv exCsvQ = .ok s ∧ from_csv s = .ok exCsvQ) ∧
    (∃ s, to_text exTextE = .ok s ∧ from_text_many (rustLines s) = .ok [exTextE]) :=
  ⟨roundtrip_decode_encode.1 exBin (by decide) rfl,
   roundtrip_decode_encode.2.1 exCsvQ (by decide) rfl,
   roundtrip_decode_encode.2.2 exTextE (by decide) rfl (by decide)⟩
